import Mathlib

/-!
Verification of the Wayfire overview plugin (src/overview.cpp).

This file gives a shallow embedding of the plugin's pure data model and
state-machine operations, and proves properties of the embedded code.

Modelling conventions:
* C++ float/double values are embedded as rationals (exact arithmetic).
* C++ int values are embedded as integers; C++ integer division (which
  truncates toward zero) is Int.tdiv; a C cast from a float expression to
  int is ratTrunc (truncation toward zero).
* std::chrono wall-clock time is passed explicitly: every operation that
  reads the clock takes a `now` argument (milliseconds).
* Workspace indices are natural numbers; the C++ sentinel value -1 used
  for "no index" becomes Option.none.
* Calls to output->wset()->set_workspace are recorded in a ghost log
  wsLog so that theorems can speak about committed workspace switches.
-/

namespace Overview

/-- std::clamp on rationals: (v < lo) gives lo, (hi < v) gives hi, else v. -/
def clampQ (v lo hi : ℚ) : ℚ := if v < lo then lo else if hi < v then hi else v

/-- Truncation toward zero, the semantics of a C cast from float to int. -/
def ratTrunc (q : ℚ) : ℤ := if 0 ≤ q then ⌊q⌋ else ⌈q⌉

-- ===========================================================================
-- anim_t: the scalar animation helper
-- ===========================================================================

/-- State of an anim_t object.  The C++ fields val, start, goal,
duration_ms, start_time, animating. -/
structure Anim where
  val : ℚ
  start : ℚ
  goal : ℚ
  durationMs : ℚ
  startTime : ℚ
  animating : Bool
deriving DecidableEq

/-- The anim_t constructor: anim_t(float v = 0) sets val = start = goal = v
and duration 300; animating starts false. -/
def Anim.init (v : ℚ) : Anim :=
  { val := v, start := v, goal := v, durationMs := 300, startTime := 0, animating := false }

/-- set_duration(ms). -/
def Anim.setDuration (a : Anim) (ms : ℚ) : Anim := { a with durationMs := ms }

/-- animate_to(g): start from the current value, record the clock, raise
the animating flag. -/
def Anim.animateTo (a : Anim) (now g : ℚ) : Anim :=
  { a with start := a.val, goal := g, startTime := now, animating := true }

/-- warp(v): discontinuous jump, cancels the animation. -/
def Anim.warp (a : Anim) (v : ℚ) : Anim :=
  { a with val := v, start := v, goal := v, animating := false }

/-- tick(): advance by wall-clock time, cubic ease-out, snap to the goal
once progress reaches 1. -/
def Anim.tick (a : Anim) (now : ℚ) : Anim :=
  if a.animating then
    let elapsed := now - a.startTime
    let t := clampQ (elapsed / a.durationMs) 0 1
    let ease := 1 - (1 - t) ^ 3
    let v := a.start + (a.goal - a.start) * ease
    if 1 ≤ t then { a with val := a.goal, animating := false }
    else { a with val := v }
  else a

-- ===========================================================================
-- anim_geo_t: four independent scalar animators
-- ===========================================================================

/-- wf::geometry_t. -/
structure Geo where
  x : ℤ
  y : ℤ
  width : ℤ
  height : ℤ
deriving DecidableEq

/-- anim_geo_t. -/
structure AnimGeo where
  x : Anim
  y : Anim
  w : Anim
  h : Anim
deriving DecidableEq

def AnimGeo.init : AnimGeo := ⟨Anim.init 0, Anim.init 0, Anim.init 0, Anim.init 0⟩

def AnimGeo.setDuration (g : AnimGeo) (ms : ℚ) : AnimGeo :=
  ⟨g.x.setDuration ms, g.y.setDuration ms, g.w.setDuration ms, g.h.setDuration ms⟩

def AnimGeo.animateTo (ag : AnimGeo) (now : ℚ) (g : Geo) : AnimGeo :=
  ⟨ag.x.animateTo now (g.x : ℚ), ag.y.animateTo now (g.y : ℚ),
   ag.w.animateTo now (g.width : ℚ), ag.h.animateTo now (g.height : ℚ)⟩

def AnimGeo.warp (ag : AnimGeo) (g : Geo) : AnimGeo :=
  ⟨ag.x.warp (g.x : ℚ), ag.y.warp (g.y : ℚ), ag.w.warp (g.width : ℚ), ag.h.warp (g.height : ℚ)⟩

def AnimGeo.tick (ag : AnimGeo) (now : ℚ) : AnimGeo :=
  ⟨ag.x.tick now, ag.y.tick now, ag.w.tick now, ag.h.tick now⟩

/-- current(): the animated values cast to int coordinates. -/
def AnimGeo.current (ag : AnimGeo) : Geo :=
  ⟨ratTrunc ag.x.val, ratTrunc ag.y.val, ratTrunc ag.w.val, ratTrunc ag.h.val⟩

def AnimGeo.isAnimating (ag : AnimGeo) : Bool :=
  ag.x.animating || ag.y.animating || ag.w.animating || ag.h.animating

-- ===========================================================================
-- gnome_grid: grid shape selection
-- ===========================================================================

/-- Row count for a candidate column count: rows = ceil(n / c) computed as
(n + c - 1) / c in integer arithmetic. -/
def gridRows (n c : ℕ) : ℕ := (n + c - 1) / c

/-- The score the gnome_grid loop computes for a candidate column count:
aspect deviation plus a penalty of half the wasted-cell fraction. -/
def gridScore (n c : ℕ) (areaAspect : ℚ) : ℚ :=
  let r := gridRows n c
  let ga : ℚ := (c : ℚ) / (r : ℚ)
  let rd := |ga - areaAspect| / areaAspect
  let ep := (((c * r : ℕ) : ℚ) - (n : ℚ)) / (n : ℚ) * (1 / 2)
  rd + ep

/-- One iteration of the gnome_grid search loop: keep the candidate iff its
score is strictly below the best score so far. -/
def gridStep (n : ℕ) (a : ℚ) (b : ℚ × ℕ × ℕ) (c : ℕ) : ℚ × ℕ × ℕ :=
  if gridScore n c a < b.1 then (gridScore n c a, c, gridRows n c) else b

/-- gnome_grid(n, area_aspect): fixed single-row layouts for n ≤ 3, else a
search over cols in [2, min(n,6)] starting from best_score = 1e9,
best = (2, 1). -/
def gnomeGrid (n : ℕ) (areaAspect : ℚ) : ℕ × ℕ :=
  if n = 0 then (1, 1)
  else if n = 1 then (1, 1)
  else if n = 2 then (2, 1)
  else if n = 3 then (3, 1)
  else
    let best := (List.range' 2 (min n 6 - 1)).foldl (gridStep n areaAspect) ((10 ^ 9 : ℚ), 2, 1)
    (best.2.1, best.2.2)

-- ===========================================================================
-- arrange_ws_windows: the per-workspace layout computation
-- ===========================================================================

/-- Cell width: cw = (waw - gap*(cols-1)) / cols with waw = W - spacing*2,
gap = spacing, in C++ integer division. -/
def cellW (W sp : ℤ) (cols : ℕ) : ℤ :=
  ((W - sp * 2) - sp * ((cols : ℤ) - 1)).tdiv (cols : ℤ)

/-- Cell height: ch = (wah - gap*(rows-1)) / rows with
wah = H - inset_y - inset_bot = H - spacing - spacing. -/
def cellH (H sp : ℤ) (rows : ℕ) : ℤ :=
  ((H - sp - sp) - sp * ((rows : ℤ) - 1)).tdiv (rows : ℤ)

/-- Grid top edge: gy = inset_y + (wah - gh)/2 where
gh = rows*ch + (rows-1)*gap. -/
def gridTop (H sp : ℤ) (rows : ℕ) : ℤ :=
  sp + ((H - sp - sp) - ((rows : ℤ) * cellH H sp rows + ((rows : ℤ) - 1) * sp)).tdiv 2

/-- Items in a row: itr = (row == rows-1) ? (n - row*cols) : cols. -/
def rowItems (n cols rows row : ℕ) : ℤ :=
  if row = rows - 1 then (n : ℤ) - (row : ℤ) * (cols : ℤ) else (cols : ℤ)

/-- Row width: row_w = itr*cw + (itr-1)*gap. -/
def rowWidth (W sp : ℤ) (n cols rows row : ℕ) : ℤ :=
  rowItems n cols rows row * cellW W sp cols + (rowItems n cols rows row - 1) * sp

/-- Row left edge: row_x = (og.width - row_w) / 2. -/
def rowStart (W sp : ℤ) (n cols rows row : ℕ) : ℤ :=
  (W - rowWidth W sp n cols rows row).tdiv 2

/-- The workspace-local cell of the i-th window: row = i / cols,
cir = i - row*cols, cx = row_x + cir*(cw+gap), cy = gy + row*(ch+gap). -/
def gridCell (W H sp : ℤ) (n cols rows i : ℕ) : Geo :=
  ⟨rowStart W sp n cols rows (i / cols) +
     ((i : ℤ) - ((i / cols : ℕ) : ℤ) * (cols : ℤ)) * (cellW W sp cols + sp),
   gridTop H sp rows + ((i / cols : ℕ) : ℤ) * (cellH H sp rows + sp),
   cellW W sp cols, cellH H sp rows⟩

/-- Scale a window to fit its cell preserving aspect, shrunk by the 0.95
margin factor, and centered: sc = min(cw/ow, ch/oh)*0.95,
sw = (int)(ow*sc), sh = (int)(oh*sc), centered in the cell. -/
def fitInCell (cell orig : Geo) : Geo :=
  ⟨cell.x + (cell.width -
      ratTrunc ((orig.width : ℚ) *
        (min ((cell.width : ℚ) / (orig.width : ℚ)) ((cell.height : ℚ) / (orig.height : ℚ)) *
          (95 / 100)))).tdiv 2,
   cell.y + (cell.height -
      ratTrunc ((orig.height : ℚ) *
        (min ((cell.width : ℚ) / (orig.width : ℚ)) ((cell.height : ℚ) / (orig.height : ℚ)) *
          (95 / 100)))).tdiv 2,
   ratTrunc ((orig.width : ℚ) *
     (min ((cell.width : ℚ) / (orig.width : ℚ)) ((cell.height : ℚ) / (orig.height : ℚ)) *
       (95 / 100))),
   ratTrunc ((orig.height : ℚ) *
     (min ((cell.width : ℚ) / (orig.width : ℚ)) ((cell.height : ℚ) / (orig.height : ℚ)) *
       (95 / 100)))⟩

/-- Map with the element index, starting at k. -/
def mapIdxFrom {α β : Type} (f : ℕ → α → β) : ℕ → List α → List β
  | _, [] => []
  | k, a :: as => f k a :: mapIdxFrom f (k + 1) as

/-- arrange_ws_windows as a function of the original window geometries:
choose the grid with gnome_grid on the preview aspect and assign one cell
per window. -/
def layoutTargets (W H sp : ℤ) (aspect : ℚ) (origs : List Geo) : List Geo :=
  mapIdxFrom
    (fun i o =>
      fitInCell
        (gridCell W H sp origs.length (gnomeGrid origs.length aspect).1
          (gnomeGrid origs.length aspect).2 i) o)
    0 origs

/-- Two rectangles overlap when both coordinate ranges intersect with
positive extent. -/
def geoOverlap (r s : Geo) : Prop :=
  r.x < s.x + s.width ∧ s.x < r.x + r.width ∧ r.y < s.y + s.height ∧ s.y < r.y + r.height

/-- r lies inside the area rectangle. -/
def geoInside (r area : Geo) : Prop :=
  area.x ≤ r.x ∧ r.x + r.width ≤ area.x + area.width ∧
  area.y ≤ r.y ∧ r.y + r.height ≤ area.y + area.height

/-- An externally driven call on an anim_t object. -/
inductive AnimOp where
  | animateTo (now g : ℚ)
  | warp (v : ℚ)
  | tick (now : ℚ)
  | setDuration (ms : ℚ)

def Anim.applyOp (a : Anim) : AnimOp → Anim
  | .animateTo now g => a.animateTo now g
  | .warp v => a.warp v
  | .tick now => a.tick now
  | .setDuration ms => a.setDuration ms

def Anim.runOps (a : Anim) : List AnimOp → Anim
  | [] => a
  | op :: ops => (a.applyOp op).runOps ops

-- ===========================================================================
-- activities_view_t: the overview state machine
-- ===========================================================================

/-- A 2D point with rational (float) coordinates, wf::pointf_t. -/
structure Ptf where
  x : ℚ
  y : ℚ
deriving DecidableEq

/-- A workspace grid point, wf::point_t restricted to grid coordinates. -/
structure WsPoint where
  x : ℕ
  y : ℕ
deriving DecidableEq

/-- The host-compositor state of a view that the plugin reads: identity,
geometry and the flags checked in get_views_on_workspace. -/
structure ViewT where
  id : ℕ
  geo : Geo
  isToplevel : Bool
  mapped : Bool
  minimized : Bool
  onOutput : Bool
deriving DecidableEq

/-- The fields of a view_2d_transformer_t the plugin writes. -/
structure Transformer where
  translationX : ℚ
  translationY : ℚ
  scaleX : ℚ
  scaleY : ℚ
  alpha : ℚ
deriving DecidableEq

/-- A freshly attached 2D transformer: identity transform, full opacity. -/
def Transformer.initial : Transformer := ⟨0, 0, 1, 1, 1⟩

/-- window_slot_t (icon texture omitted: GPU state). -/
structure WindowSlot where
  view : ViewT
  origGeo : Geo
  targetGeo : Geo
  anim : AnimGeo
  transformer : Option Transformer
  hovered : Bool
deriving DecidableEq

instance : Inhabited Geo := ⟨⟨0, 0, 0, 0⟩⟩

instance : Inhabited WindowSlot :=
  ⟨⟨⟨0, ⟨0, 0, 0, 0⟩, false, false, false, false⟩, ⟨0, 0, 0, 0⟩, ⟨0, 0, 0, 0⟩,
    AnimGeo.init, none, false⟩⟩

/-- A fresh slot for a view: geometry fields set by the caller, everything
else default-initialized as in C++. -/
def WindowSlot.fresh (v : ViewT) (og : Geo) : WindowSlot :=
  { view := v, origGeo := og, targetGeo := ⟨0, 0, 0, 0⟩, anim := AnimGeo.init,
    transformer := none, hovered := false }

/-- start_anim(entering, duration). -/
def WindowSlot.startAnim (s : WindowSlot) (entering : Bool) (duration now : ℚ) : WindowSlot :=
  if entering then
    { s with anim := ((s.anim.setDuration duration).warp s.origGeo).animateTo now s.targetGeo }
  else
    { s with anim := (s.anim.setDuration duration).animateTo now s.origGeo }

/-- update_transformer: translation from the center delta, scale from the
size ratio clamped to [0.1, 10], alpha from hover state; early return when
no transformer is attached, the view is unmapped, or the original
dimensions are degenerate. -/
def WindowSlot.updateTransformer (s : WindowSlot) : WindowSlot :=
  match s.transformer with
  | none => s
  | some _ =>
    if s.view.mapped = false ∨ s.origGeo.width ≤ 0 ∨ s.origGeo.height ≤ 0 then s
    else
      { s with transformer := some (Transformer.mk
          (((s.anim.current.x : ℚ) + (s.anim.current.width : ℚ) / 2) -
            ((s.origGeo.x : ℚ) + (s.origGeo.width : ℚ) / 2))
          (((s.anim.current.y : ℚ) + (s.anim.current.height : ℚ) / 2) -
            ((s.origGeo.y : ℚ) + (s.origGeo.height : ℚ) / 2))
          (clampQ ((s.anim.current.width : ℚ) / (s.origGeo.width : ℚ)) (1 / 10) 10)
          (clampQ ((s.anim.current.height : ℚ) / (s.origGeo.height : ℚ)) (1 / 10) 10)
          (if s.hovered then 1 else 88 / 100)) }

/-- drag_state_t. -/
structure DragState where
  active : Bool
  view : Option ViewT
  slotIndex : Option ℕ
  grabCursor : Ptf
  currentCursor : Ptf
  initialScreenGeo : Geo
  hoverWs : Option ℕ
  hoverLargeWs : Option ℕ
  hasSnapshot : Bool
  needsCapture : Bool
  floatWidth : ℤ
  floatHeight : ℤ
  viewGeo : Geo
  grabOffsetInWindow : Ptf
deriving DecidableEq

def DragState.initial : DragState :=
  ⟨false, none, none, ⟨0, 0⟩, ⟨0, 0⟩, ⟨0, 0, 0, 0⟩, none, none, false, false, 0, 0,
   ⟨0, 0, 0, 0⟩, ⟨0, 0⟩⟩

/-- drag_state_t::reset clears exactly these fields. -/
def DragState.reset (d : DragState) : DragState :=
  { d with
    active := false, view := none, slotIndex := none, hoverWs := none,
    hoverLargeWs := none, hasSnapshot := false, needsCapture := false }

/-- ws_window_data_t. -/
structure WsWindowData where
  slots : List WindowSlot
  transformersAttached : Bool
deriving DecidableEq

instance : Inhabited WsWindowData := ⟨⟨[], false⟩⟩

/-- activities_view_t state.  wsLog is the ghost log of set_workspace
calls. -/
structure ActView where
  og : Geo
  wsWindows : List WsWindowData
  focusedWs : ℕ
  origWs : WsPoint
  hoveredView : Option ViewT
  carouselScroll : Anim
  previewGeo : Geo
  carouselGap : ℤ
  wsGeos : List Geo
  wsRows : ℕ
  wsCols : ℕ
  totalWs : ℕ
  curWs : WsPoint
  desktopAnim : AnimGeo
  isActive : Bool
  isAnimating : Bool
  switchingWs : Bool
  pendingWs : Option ℕ
  cornerRadius : ℤ
  spacing : ℤ
  panelHeight : ℤ
  animDuration : ℚ
  iconSize : ℤ
  drag : DragState
  wsLog : List WsPoint
deriving DecidableEq

/-- A freshly constructed activities_view_t for an output with geometry og:
the constructor sets duration 300 on the preview rect and the carousel
scroll; option defaults are corner 12, spacing 20, panel 16, duration
300, icon 72. -/
def ActView.initial (og : Geo) : ActView :=
  { og := og, wsWindows := [], focusedWs := 0, origWs := ⟨0, 0⟩, hoveredView := none,
    carouselScroll := Anim.init 0, previewGeo := ⟨0, 0, 0, 0⟩, carouselGap := 0,
    wsGeos := [], wsRows := 1, wsCols := 1, totalWs := 1, curWs := ⟨0, 0⟩,
    desktopAnim := AnimGeo.init, isActive := false, isAnimating := false,
    switchingWs := false, pendingWs := none, cornerRadius := 12, spacing := 20,
    panelHeight := 16, animDuration := 300, iconSize := 72, drag := DragState.initial,
    wsLog := [] }

/-- ws_index_to_point. -/
def wsIndexToPoint (cols idx : ℕ) : WsPoint := ⟨idx % cols, idx / cols⟩

/-- ws_point_to_index. -/
def wsPointToIndex (cols : ℕ) (p : WsPoint) : ℕ := p.y * cols + p.x

/-- The workspace a view's center falls in, relative to the current
workspace: cur + floor(center / output size), per axis. -/
def viewCenterWsX (og : Geo) (cur : WsPoint) (v : ViewT) : ℤ :=
  (cur.x : ℤ) + ⌊(((v.geo.x + v.geo.width.tdiv 2 : ℤ) : ℚ) / (og.width : ℚ))⌋

def viewCenterWsY (og : Geo) (cur : WsPoint) (v : ViewT) : ℤ :=
  (cur.y : ℤ) + ⌊(((v.geo.y + v.geo.height.tdiv 2 : ℤ) : ℚ) / (og.height : ℚ))⌋

/-- get_views_on_workspace: mapped, non-minimized toplevels of this output
whose center workspace is ws. -/
def getViewsOnWorkspace (og : Geo) (cur : WsPoint) (views : List ViewT) (ws : WsPoint) :
    List ViewT :=
  views.filter fun v =>
    v.isToplevel && (v.onOutput && (!v.minimized && (v.mapped &&
      (viewCenterWsX og cur v == (ws.x : ℤ) && viewCenterWsY og cur v == (ws.y : ℤ)))))

/-- The slot built at overview entry for a view on workspace cell wsp:
workspace-local original geometry with non-positive dimensions replaced
by 100. -/
def entrySlot (og : Geo) (cur wsp : WsPoint) (v : ViewT) : WindowSlot :=
  let ox : ℤ := ((wsp.x : ℤ) - (cur.x : ℤ)) * og.width
  let oy : ℤ := ((wsp.y : ℤ) - (cur.y : ℤ)) * og.height
  let g0 : Geo := ⟨v.geo.x - ox, v.geo.y - oy, v.geo.width, v.geo.height⟩
  WindowSlot.fresh v
    ⟨g0.x, g0.y, if g0.width ≤ 0 then 100 else g0.width,
     if g0.height ≤ 0 then 100 else g0.height⟩

/-- arrange_ws_windows applied to a slot list: recompute each slot's
target geometry from the grid chosen by gnome_grid on the preview
aspect. -/
def layoutSlots (W H sp : ℤ) (aspect : ℚ) (slots : List WindowSlot) : List WindowSlot :=
  mapIdxFrom
    (fun i sl =>
      { sl with
        targetGeo := fitInCell (gridCell W H sp slots.length
          (gnomeGrid slots.length aspect).1 (gnomeGrid slots.length aspect).2 i) sl.origGeo })
    0 slots

/-- The list-level body of arrange_ws_windows(wi): no-op when wi is out of
range or the workspace has no slots. -/
def arrangeWsList (W H sp : ℤ) (aspect : ℚ) (ws : List WsWindowData) (wi : ℕ) :
    List WsWindowData :=
  if wi < ws.length then
    let wd := ws.getD wi default
    if wd.slots.isEmpty then ws
    else ws.set wi ({ wd with slots := layoutSlots W H sp aspect wd.slots })
  else ws

/-- arrange_ws_windows(wi). -/
def ActView.arrangeWsWindows (s : ActView) (wi : ℕ) : ActView :=
  let a : ℚ := (s.previewGeo.width : ℚ) / (s.previewGeo.height : ℚ)
  { s with wsWindows := arrangeWsList s.og.width s.og.height s.spacing a s.wsWindows wi }

/-- arrange(): the thumbnail strip geometry, the preview rectangle, the
carousel gap, then arrange_ws_windows for every workspace. -/
def ActView.arrange (s : ActView) : ActView :=
  let og := s.og
  let th : ℤ := ratTrunc ((og.height : ℚ) * (10 / 100))
  let tw : ℤ := (th * og.width).tdiv og.height
  let wsSp : ℤ := s.spacing.tdiv 2
  let totalW : ℤ := (s.totalWs : ℤ) * tw + ((s.totalWs : ℤ) - 1) * wsSp
  let wsX : ℤ := (og.width - totalW).tdiv 2
  let wsY : ℤ := og.height - s.spacing * 2 - th
  let top : ℤ := s.panelHeight + s.spacing
  let mainBot : ℤ := wsY - s.spacing
  let availH : ℤ := mainBot - top
  let availW : ℤ := og.width - s.spacing * 4
  let aspect : ℚ := (og.width : ℚ) / (og.height : ℚ)
  let mh0 : ℤ := ratTrunc ((availW : ℚ) / aspect)
  let mw1 : ℤ := if availH < mh0 then ratTrunc ((availH : ℚ) * aspect) else availW
  let mh1 : ℤ := if availH < mh0 then availH else mh0
  let mw : ℤ := ratTrunc ((mw1 : ℚ) * (98 / 100))
  let mh : ℤ := ratTrunc ((mh1 : ℚ) * (98 / 100))
  let s1 := { s with
    wsGeos := (List.range s.totalWs).map (fun i => (⟨wsX + (i : ℤ) * (tw + wsSp), wsY, tw, th⟩ : Geo)),
    previewGeo := (⟨(og.width - mw).tdiv 2, top + (availH - mh).tdiv 2, mw, mh⟩ : Geo),
    carouselGap := s.spacing * 2 }
  (List.range s.totalWs).foldl (fun st wi => st.arrangeWsWindows wi) s1

/-- The list-level body of attach_transformers_for_ws(wi): give every
mapped view an identity 2D transformer and start its entry animation. -/
def attachWsList (duration now : ℚ) (ws : List WsWindowData) (wi : ℕ) : List WsWindowData :=
  if wi < ws.length then
    let wd := ws.getD wi default
    if wd.transformersAttached then ws
    else
      let slots2 := wd.slots.map (fun sl =>
        if sl.view.mapped then
          ({ sl with transformer := some Transformer.initial }).startAnim true duration now
        else sl)
      ws.set wi ⟨slots2, true⟩
  else ws

/-- attach_transformers_for_ws(wi). -/
def ActView.attachTransformersForWs (s : ActView) (wi : ℕ) (now : ℚ) : ActView :=
  { s with wsWindows := attachWsList s.animDuration now s.wsWindows wi }

/-- The list-level body of detach_transformers_for_ws(wi): reset and
remove every transformer. -/
def detachWsList (ws : List WsWindowData) (wi : ℕ) : List WsWindowData :=
  if wi < ws.length then
    let wd := ws.getD wi default
    ws.set wi ⟨wd.slots.map (fun sl => { sl with transformer := none }), false⟩
  else ws

/-- detach_transformers_for_ws(wi). -/
def ActView.detachTransformersForWs (s : ActView) (wi : ℕ) : ActView :=
  { s with wsWindows := detachWsList s.wsWindows wi }

/-- cleanup_all(): detach all transformers, then drop all slots. -/
def ActView.cleanupAll (s : ActView) : ActView :=
  let s1 := (List.range s.wsWindows.length).foldl (fun st wi => st.detachTransformersForWs wi) s
  { s1 with wsWindows := [] }

/-- scroll_target_for(ws_idx). -/
def ActView.scrollTargetFor (s : ActView) (wsIdx : ℕ) : ℚ :=
  ((wsIdx : ℚ) * ((s.previewGeo.width : ℚ) + (s.carouselGap : ℚ)) +
    (s.previewGeo.width : ℚ) / 2) - (s.og.width : ℚ) / 2

/-- activate(now, grid dims, current workspace, view list): no-op when
already active; otherwise snapshot the grid, build slots per workspace,
arrange, attach transformers, warp the carousel to the focused workspace
and animate the preview rect from fullscreen. -/
def ActView.activate (s : ActView) (now : ℚ) (gridW gridH : ℕ) (cur : WsPoint)
    (views : List ViewT) : ActView :=
  if s.isActive then s
  else
    let total := gridW * gridH
    let mkWd := fun (i : ℕ) =>
      (⟨(getViewsOnWorkspace s.og cur views (wsIndexToPoint gridW i)).map
          (fun tv => entrySlot s.og cur (wsIndexToPoint gridW i) tv), false⟩ : WsWindowData)
    let s1 := { s with
      isActive := true, isAnimating := true, drag := s.drag.reset,
      wsCols := gridW, wsRows := gridH, totalWs := total,
      curWs := cur, origWs := cur, focusedWs := wsPointToIndex gridW cur,
      wsWindows := (List.range total).map mkWd }
    let s2 := s1.arrange
    let s3 := (List.range total).foldl (fun st i => st.attachTransformersForWs i now) s2
    let cs := (s3.carouselScroll.setDuration s3.animDuration).warp (s3.scrollTargetFor s3.focusedWs)
    let s4 := { s3 with carouselScroll := cs }
    let da := (s4.desktopAnim.warp ⟨0, 0, s.og.width, s.og.height⟩).animateTo now s4.previewGeo
    { s4 with desktopAnim := da }

/-- deactivate(now): no-op when inactive; otherwise clear any drag, start
every slot's exit animation, mark a pending workspace switch when the
focused workspace differs from the one recorded at entry, and animate the
preview rect back to fullscreen. -/
def ActView.deactivate (s : ActView) (now : ℚ) : ActView :=
  if s.isActive = false then s
  else
    let ws2 := s.wsWindows.map (fun wd =>
      { wd with slots := wd.slots.map (fun sl => sl.startAnim false s.animDuration now) })
    let s1 := { s with drag := s.drag.reset, isAnimating := true, wsWindows := ws2 }
    let s2 :=
      if s1.focusedWs ≠ wsPointToIndex s1.wsCols s1.origWs then
        { s1 with pendingWs := some s1.focusedWs, switchingWs := true }
      else s1
    { s2 with desktopAnim := s2.desktopAnim.animateTo now ⟨0, 0, s.og.width, s.og.height⟩ }

/-- navigate_to(ws_idx): retarget the carousel scroll without leaving the
overview. -/
def ActView.navigateTo (s : ActView) (wsIdx : ℕ) (now : ℚ) : ActView :=
  if wsIdx < s.totalWs ∧ wsIdx ≠ s.focusedWs then
    let s1 := { s with focusedWs := wsIdx }
    let cs := (s1.carouselScroll.setDuration s1.animDuration).animateTo now (s1.scrollTargetFor wsIdx)
    { s1 with carouselScroll := cs, isAnimating := true }
  else s

/-- Whether any animation is in flight: the preview rect, the carousel
scroll, or any slot. -/
def ActView.anyAnimating (s : ActView) : Bool :=
  s.desktopAnim.isAnimating || s.carouselScroll.animating ||
    s.wsWindows.any (fun wd => wd.slots.any (fun sl => sl.anim.isAnimating))

/-- check_done(): once nothing is animating, decide between "fully active"
and "session closing"; in the latter case commit a pending workspace
switch, tear everything down and go inactive. -/
def ActView.checkDone (s : ActView) : ActView :=
  if s.isAnimating = false then s
  else if s.anyAnimating then s
  else
    let s1 := { s with isAnimating := false }
    if s.og.width - 10 ≤ s1.desktopAnim.current.width then
      let s2 :=
        if s1.switchingWs then
          match s1.pendingWs with
          | some p =>
            { s1 with
              wsLog := s1.wsLog ++ [wsIndexToPoint s1.wsCols p],
              switchingWs := false, pendingWs := none }
          | none => s1
        else s1
      { s2.cleanupAll with isActive := false }
    else s1

/-- The animation-advancing part of tick(): preview rect, carousel, every
slot, and every slot's transformer. -/
def ActView.tickAnims (s : ActView) (now : ℚ) : ActView :=
  { s with
    desktopAnim := s.desktopAnim.tick now,
    carouselScroll := s.carouselScroll.tick now,
    wsWindows := s.wsWindows.map (fun wd =>
      { wd with slots := wd.slots.map (fun sl =>
          ({ sl with anim := sl.anim.tick now }).updateTransformer) }) }

/-- tick(now): advance all animations, then the completion check. -/
def ActView.tick (s : ActView) (now : ℚ) : ActView :=
  (s.tickAnims now).checkDone

-- ===========================================================================
-- Hit testing and the drag controller
-- ===========================================================================

/-- The rectangle bounds test used by all the hit-testing loops:
p.x >= g.x && p.x < g.x + g.width && p.y >= g.y && p.y < g.y + g.height. -/
def ptInGeoF (p : Ptf) (g : Geo) : Bool :=
  decide ((g.x : ℚ) ≤ p.x) && decide (p.x < (g.x : ℚ) + (g.width : ℚ)) &&
  decide ((g.y : ℚ) ≤ p.y) && decide (p.y < (g.y : ℚ) + (g.height : ℚ))

/-- get_large_ws_render_geo(ws_idx): the carousel position of a large
preview, cast to int coordinates. -/
def ActView.getLargeWsRenderGeo (s : ActView) (wsIdx : ℕ) : Geo :=
  ⟨ratTrunc ((wsIdx : ℚ) * ((s.previewGeo.width : ℚ) + (s.carouselGap : ℚ)) -
      s.carouselScroll.val),
   s.previewGeo.y, s.previewGeo.width, s.previewGeo.height⟩

/-- find_large_ws_at: first workspace whose large preview contains the
screen-local point. -/
def ActView.findLargeWsAt (s : ActView) (p : Ptf) : Option ℕ :=
  (List.range s.totalWs).find? (fun i => ptInGeoF p (s.getLargeWsRenderGeo i))

/-- find_thumb_ws_at: thumbnails are hit-tested in the flipped-Y local
space: lx = p.x - og.x, ly = og.height - (p.y - og.y). -/
def ActView.findThumbWsAt (s : ActView) (gp : Ptf) : Option ℕ :=
  (List.range s.wsGeos.length).find? (fun i =>
    ptInGeoF ⟨gp.x - (s.og.x : ℚ), (s.og.height : ℚ) - (gp.y - (s.og.y : ℚ))⟩
      (s.wsGeos.getD i default))

/-- screen_to_ws_local: map a screen-local point into workspace-local
coordinates through the current carousel geometry (with the vertical
flip). -/
def ActView.screenToWsLocal (s : ActView) (p : Ptf) (wsIdx : ℕ) : Ptf :=
  let dg := s.getLargeWsRenderGeo wsIdx
  if dg.width ≤ 0 ∨ dg.height ≤ 0 then p
  else
    ⟨(p.x - (dg.x : ℚ)) * (s.og.width : ℚ) / (dg.width : ℚ),
     (p.y - (s.og.height : ℚ) + (dg.y : ℚ) + (dg.height : ℚ)) * (s.og.height : ℚ) /
       (dg.height : ℚ)⟩

/-- The back-to-front slot search of find_slot_at: the loop walks indices
downward and returns the first hit, i.e. the last matching index in list
order. -/
def lastHitIdx (wp : Ptf) (slots : List WindowSlot) : Option ℕ :=
  (slots.foldl
    (fun (acc : Option ℕ × ℕ) sl =>
      (if ptInGeoF wp sl.anim.current then some acc.2 else acc.1, acc.2 + 1))
    (none, 0)).1

/-- find_slot_at: only inside the focused workspace's large preview; the
point is mapped to workspace-local space and tested against each slot's
current animated geometry back-to-front. -/
def ActView.findSlotAt (s : ActView) (sl : Ptf) : Option ℕ :=
  if s.focusedWs < s.wsWindows.length then
    if s.findLargeWsAt sl = some s.focusedWs then
      lastHitIdx (s.screenToWsLocal sl s.focusedWs)
        (s.wsWindows.getD s.focusedWs default).slots
    else none
  else none

/-- start_drag(sl): refuse when a drag is active or nothing is hit;
otherwise record the session: grab cursor, the slot's current screen-space
geometry through the forward mapping, and needs_capture for the deferred
snapshot. -/
def ActView.startDrag (s : ActView) (sl : Ptf) : ActView :=
  if s.drag.active then s
  else
    match s.findSlotAt sl with
    | none => s
    | some idx =>
      let slot := (s.wsWindows.getD s.focusedWs default).slots.getD idx default
      let cur := slot.anim.current
      let dg := s.getLargeWsRenderGeo s.focusedWs
      let sx : ℚ := (dg.width : ℚ) / (s.og.width : ℚ)
      let sy : ℚ := (dg.height : ℚ) / (s.og.height : ℚ)
      let isg : Geo :=
        ⟨ratTrunc ((dg.x : ℚ) + (cur.x : ℚ) * sx),
         ratTrunc ((s.og.height : ℚ) - (dg.y : ℚ) - (dg.height : ℚ) + (cur.y : ℚ) * sy),
         ratTrunc ((cur.width : ℚ) * sx), ratTrunc ((cur.height : ℚ) * sy)⟩
      { s with drag := { s.drag with
          active := true, view := some slot.view, slotIndex := some idx,
          grabCursor := sl, currentCursor := sl, hoverWs := none, hoverLargeWs := none,
          initialScreenGeo := isg, floatWidth := isg.width, floatHeight := isg.height,
          viewGeo := slot.view.geo,
          grabOffsetInWindow := ⟨sl.x - (isg.x : ℚ), sl.y - (isg.y : ℚ)⟩,
          needsCapture := true, hasSnapshot := false } }

/-- update_drag(sl, gp): track the cursor and the hovered drop targets;
the focused workspace's own large preview is never a hover target. -/
def ActView.updateDrag (s : ActView) (sl gp : Ptf) : ActView :=
  if s.drag.active = false then s
  else
    let hlw := match s.findLargeWsAt sl with
      | some l => if l = s.focusedWs then none else some l
      | none => none
    { s with drag := { s.drag with
        currentCursor := sl, hoverWs := s.findThumbWsAt gp, hoverLargeWs := hlw } }

/-- The drop-target resolution of end_drag: a thumbnail (when it is not
the source workspace) wins over a large preview (with the source filtered
out); otherwise no target. -/
def ActView.dropTarget (s : ActView) (sl gp : Ptf) : Option ℕ :=
  let tl := match s.findLargeWsAt sl with
    | some l => if l = s.focusedWs then none else some l
    | none => none
  match s.findThumbWsAt gp with
  | some t => if t ≠ s.focusedWs then some t else tl
  | none => tl

/-- move_view_to_workspace: translate the view by the workspace-origin
delta (no-op for unmapped views). -/
def ActView.moveViewToWorkspace (s : ActView) (v : ViewT) (wi : ℕ) : ViewT :=
  if v.mapped = false then v
  else
    let t := wsIndexToPoint s.wsCols wi
    { v with geo := { v.geo with
        x := v.geo.x + ((t.x : ℤ) - (s.curWs.x : ℤ)) * s.og.width,
        y := v.geo.y + ((t.y : ℤ) - (s.curWs.y : ℤ)) * s.og.height } }

/-- rearrange_ws(wi): rerun the layout for one workspace and animate every
slot to its (new) target. -/
def ActView.rearrangeWs (s : ActView) (wi : ℕ) (now : ℚ) : ActView :=
  if wi < s.wsWindows.length then
    let s1 := s.arrangeWsWindows wi
    let wd := s1.wsWindows.getD wi default
    let slots2 := wd.slots.map (fun sl =>
      { sl with anim := (sl.anim.setDuration s1.animDuration).animateTo now sl.targetGeo })
    { s1 with
      wsWindows := s1.wsWindows.set wi ({ wd with slots := slots2 }),
      isAnimating := true }
  else s

/-- rearrange_focused_ws. -/
def ActView.rearrangeFocusedWs (s : ActView) (now : ℚ) : ActView :=
  s.rearrangeWs s.focusedWs now

/-- add_view_to_ws(view, dest_ws): build an origin-adjusted slot with the
same degenerate-dimension clamping as at entry, attach a fresh
transformer, warp its animation to the original geometry and rerun the
layout for the destination workspace. -/
def ActView.addViewToWs (s : ActView) (v : ViewT) (destWs : ℕ) (now : ℚ) : ActView :=
  if v.mapped = false then s
  else if destWs < s.wsWindows.length then
    let wsp := wsIndexToPoint s.wsCols destWs
    let ox : ℤ := ((wsp.x : ℤ) - (s.curWs.x : ℤ)) * s.og.width
    let oy : ℤ := ((wsp.y : ℤ) - (s.curWs.y : ℤ)) * s.og.height
    let og2 : Geo :=
      ⟨v.geo.x - ox, v.geo.y - oy,
       if v.geo.width ≤ 0 then 100 else v.geo.width,
       if v.geo.height ≤ 0 then 100 else v.geo.height⟩
    let ns0 := WindowSlot.fresh v og2
    let ns1 := { ns0 with transformer := some Transformer.initial }
    let ns2 := { ns1 with anim := (ns1.anim.setDuration s.animDuration).warp og2 }
    let wd := s.wsWindows.getD destWs default
    let ws2 := s.wsWindows.set destWs ({ wd with slots := wd.slots ++ [ns2] })
    let s1 := { s with wsWindows := ws2 }
    s1.rearrangeWs destWs now
  else s

/-- The "snap back" path shared by end_drag (no valid target) and
cancel_drag: restore the dragged slot's transformer opacity and animate it
back to its target geometry. -/
def ActView.snapBackDraggedSlot (s : ActView) (now : ℚ) : ActView :=
  match s.drag.slotIndex with
  | some si =>
    if s.focusedWs < s.wsWindows.length ∧
        si < (s.wsWindows.getD s.focusedWs default).slots.length then
      let wd : WsWindowData := s.wsWindows.getD s.focusedWs default
      let slot : WindowSlot := wd.slots.getD si default
      let slot1 : WindowSlot := { slot with
        transformer := slot.transformer.map (fun tr => ({ tr with alpha := 88 / 100 } : Transformer)) }
      let slot2 : WindowSlot := { slot1 with
        anim := (slot1.anim.setDuration s.animDuration).animateTo now slot1.targetGeo }
      { s with
        wsWindows := s.wsWindows.set s.focusedWs ({ wd with slots := wd.slots.set si slot2 }),
        isAnimating := true }
    else s
  | none => s

/-- end_drag(sl, gp): resolve the drop target; on a valid target move the
window, remove its source slot, rearrange the source workspace, then add
the view to the destination workspace and rearrange it; otherwise snap
back.  The drag session is cleared on every path. -/
def ActView.endDrag (s : ActView) (sl gp : Ptf) (now : ℚ) : ActView :=
  if s.drag.active = false then s
  else
    match s.dropTarget sl gp, s.drag.view with
    | some at_, some mv =>
      let mv2 := s.moveViewToWorkspace mv at_
      let s1 := match s.drag.slotIndex with
        | some si =>
          if si < (s.wsWindows.getD s.focusedWs default).slots.length then
            let wd := s.wsWindows.getD s.focusedWs default
            { s with wsWindows :=
              s.wsWindows.set s.focusedWs ({ wd with slots := wd.slots.eraseIdx si }) }
          else s
        | none => s
      let s2 := { s1 with drag := s1.drag.reset }
      let s3 := s2.rearrangeFocusedWs now
      s3.addViewToWs mv2 at_ now
    | _, _ =>
      let s1 := s.snapBackDraggedSlot now
      { s1 with drag := s1.drag.reset }

/-- cancel_drag(): the same snap-back path, then clear the session. -/
def ActView.cancelDrag (s : ActView) (now : ℚ) : ActView :=
  if s.drag.active = false then s
  else
    let s1 := s.snapBackDraggedSlot now
    { s1 with drag := s1.drag.reset }

-- ===========================================================================
-- Claim C9
-- ===========================================================================

/-- Every slot in every workspace has strictly positive original
dimensions. -/
def slotsPosL (ws : List WsWindowData) : Prop :=
  ∀ wd ∈ ws, ∀ sl ∈ wd.slots, 0 < sl.origGeo.width ∧ 0 < sl.origGeo.height

-- ===========================================================================
-- Claim C10
-- ===========================================================================

/-- The views held by workspace i's slot list. -/
def slotViewsAt (ws : List WsWindowData) (i : ℕ) : List ViewT :=
  (ws.getD i default).slots.map (fun sl => sl.view)

def c7View : ViewT := ⟨1, ⟨0, 0, 800, 600⟩, true, true, false, true⟩

def c7Slot : WindowSlot :=
  { WindowSlot.fresh c7View ⟨0, 0, 1000, 1000⟩ with
    anim := AnimGeo.init.warp ⟨0, 0, 1000, 1000⟩,
    targetGeo := ⟨10, 20, 300, 200⟩ }

def c7State : ActView :=
  { ActView.initial ⟨0, 0, 1000, 1000⟩ with
    previewGeo := ⟨0, 0, 1000, 1000⟩,
    wsWindows := [⟨[c7Slot], false⟩],
    totalWs := 1 }

-- ===========================================================================
-- Theorems
-- ===========================================================================

theorem ratTrunc_of_nonneg {q : ℚ} (h : 0 ≤ q) : ratTrunc q = ⌊q⌋ := by
  simp [ratTrunc, h]

theorem ratTrunc_intCast (z : ℤ) : ratTrunc ((z : ℚ)) = z := by
  unfold ratTrunc
  split <;> simp

theorem clampQ_le_of_le {v lo hi : ℚ} (h1 : lo ≤ hi) : clampQ v lo hi ≤ hi := by
  unfold clampQ
  split
  · exact h1
  · split
    · exact le_refl hi
    · linarith [not_lt.mp (by assumption : ¬hi < v)]

theorem le_clampQ_of_le {v lo hi : ℚ} (h1 : lo ≤ hi) : lo ≤ clampQ v lo hi := by
  unfold clampQ
  split
  · exact le_refl lo
  · split
    · exact h1
    · linarith [not_lt.mp (by assumption : ¬v < lo)]

theorem one_le_clampQ {v : ℚ} (h : 1 ≤ v) : 1 ≤ clampQ v 0 1 := by
  unfold clampQ
  split
  · linarith
  · split
    · exact le_refl 1
    · exact h

/-- Unfold the absolute value on rationals into an if-then-else, so that
concrete instances can be evaluated by numeric normalization. -/
theorem absIte (x : ℚ) : |x| = if x < 0 then -x else x := by
  rcases lt_or_ge x 0 with h | h
  · simp [h, abs_of_neg h]
  · simp [not_lt.mpr h, abs_of_nonneg h]

theorem gridStep_fst_le (n : ℕ) (a : ℚ) (b : ℚ × ℕ × ℕ) (c : ℕ) :
    (gridStep n a b c).1 ≤ b.1 := by
  unfold gridStep
  split
  · linarith [‹gridScore n c a < b.1›]
  · exact le_refl b.1

theorem foldl_gridStep_fst_le (n : ℕ) (a : ℚ) (l : List ℕ) (b : ℚ × ℕ × ℕ) :
    (l.foldl (gridStep n a) b).1 ≤ b.1 := by
  induction l generalizing b with
  | nil => simp
  | cons x xs ih => exact le_trans (ih (gridStep n a b x)) (gridStep_fst_le n a b x)

theorem foldl_gridStep_le_score (n : ℕ) (a : ℚ) (l : List ℕ) (b : ℚ × ℕ × ℕ)
    (c : ℕ) (hc : c ∈ l) : (l.foldl (gridStep n a) b).1 ≤ gridScore n c a := by
  induction l generalizing b with
  | nil => cases hc
  | cons x xs ih =>
    rcases List.mem_cons.mp hc with h | h
    · subst h
      refine le_trans (foldl_gridStep_fst_le n a xs (gridStep n a b c)) ?_
      unfold gridStep
      split
      · exact le_refl _
      · linarith [not_lt.mp (by assumption : ¬gridScore n c a < b.1)]
    · exact ih (gridStep n a b x) h

theorem foldl_gridStep_shape (n : ℕ) (a : ℚ) (l : List ℕ) (b : ℚ × ℕ × ℕ) :
    l.foldl (gridStep n a) b = b ∨
    ∃ c ∈ l, l.foldl (gridStep n a) b = (gridScore n c a, c, gridRows n c) := by
  induction l generalizing b with
  | nil => exact Or.inl rfl
  | cons x xs ih =>
    rcases ih (gridStep n a b x) with h | ⟨c, hcm, hc⟩
    · simp only [List.foldl_cons] at *
      rw [h]
      unfold gridStep
      split
      · exact Or.inr ⟨x, List.mem_cons_self x xs, rfl⟩
      · exact Or.inl rfl
    · exact Or.inr ⟨c, List.mem_cons_of_mem x hcm, hc⟩

theorem gnomeGrid_eq_fold (n : ℕ) (a : ℚ) (hn : 4 ≤ n) :
    gnomeGrid n a = ((List.range' 2 (min n 6 - 1)).foldl (gridStep n a) ((10 ^ 9 : ℚ), 2, 1)).2 := by
  unfold gnomeGrid
  rw [if_neg (by omega), if_neg (by omega), if_neg (by omega), if_neg (by omega)]

/-- When some candidate scores below the 1e9 sentinel, the search returns a
genuine candidate pair (c, ceil(n/c)) with c in the searched range. -/
theorem gnomeGrid_candidate (n : ℕ) (a : ℚ) (hn : 4 ≤ n)
    (hex : ∃ c ∈ List.range' 2 (min n 6 - 1), gridScore n c a < 10 ^ 9) :
    ∃ c, 2 ≤ c ∧ c ≤ min n 6 ∧ gnomeGrid n a = (c, gridRows n c) := by
  obtain ⟨c0, hc0m, hc0s⟩ := hex
  rcases foldl_gridStep_shape n a (List.range' 2 (min n 6 - 1)) ((10 ^ 9 : ℚ), 2, 1) with h | ⟨c, hcm, hc⟩
  · exfalso
    have h1 := foldl_gridStep_le_score n a (List.range' 2 (min n 6 - 1)) ((10 ^ 9 : ℚ), 2, 1) c0 hc0m
    rw [h] at h1
    exact absurd (lt_of_le_of_lt h1 hc0s) (lt_irrefl _)
  · refine ⟨c, ?_, ?_, ?_⟩
    · exact (List.mem_range'_1.mp hcm).1
    · have := (List.mem_range'_1.mp hcm).2
      omega
    · rw [gnomeGrid_eq_fold n a hn, hc]

theorem gridRows_pos (n c : ℕ) (hn : 1 ≤ n) (hc : 1 ≤ c) : 1 ≤ gridRows n c := by
  unfold gridRows
  rw [Nat.le_div_iff_mul_le (by omega)]
  omega

theorem gridRows_le_n (n c : ℕ) (hc : 1 ≤ c) : gridRows n c ≤ n := by
  unfold gridRows
  rw [Nat.div_le_iff_le_mul_add_pred (by omega)]
  have h : n ≤ c * n := Nat.le_mul_of_pos_left n (by omega)
  omega

theorem le_mul_gridRows (n c : ℕ) (hc : 1 ≤ c) : n ≤ c * gridRows n c := by
  have h := Nat.div_add_mod (n + c - 1) c
  have h2 := Nat.mod_lt (n + c - 1) (show 0 < c by omega)
  unfold gridRows
  have h3 : 1 ≤ n + c := by omega
  zify [h3] at h h2 ⊢
  linarith

/-- For up to 20 windows and a not-absurdly-thin aspect, the c = 2 candidate
already scores below the sentinel: the search cannot fall back to the
initial (2, 1) pair. -/
theorem gridScore_two_lt (n : ℕ) (a : ℚ) (hn : 4 ≤ n) (ha : (1 : ℚ) / 100000000 ≤ a) :
    gridScore n 2 a < 10 ^ 9 := by
  have hr2 : 2 ≤ gridRows n 2 := by
    unfold gridRows
    omega
  have hr2q : (2 : ℚ) ≤ (gridRows n 2 : ℚ) := by exact_mod_cast hr2
  have hrpos : (0 : ℚ) < (gridRows n 2 : ℚ) := by linarith
  have ha0 : (0 : ℚ) < a := lt_of_lt_of_le (by norm_num) ha
  have hbig : (1 : ℚ) ≤ 100000000 * a := by
    have := mul_le_mul_of_nonneg_left ha (show (0:ℚ) ≤ 100000000 by norm_num)
    calc (1 : ℚ) = 100000000 * (1 / 100000000) := by norm_num
    _ ≤ 100000000 * a := this
  have hga : (2 : ℚ) / (gridRows n 2 : ℚ) ≤ 1 := by
    rw [div_le_one hrpos]
    exact hr2q
  have hgann : (0 : ℚ) ≤ 2 / (gridRows n 2 : ℚ) := by positivity
  have habs : |(2 : ℚ) / (gridRows n 2 : ℚ) - a| ≤ 100000000 * a := by
    rw [abs_sub_le_iff]
    constructor
    · linarith
    · nlinarith
  have hrd : |(2 : ℚ) / (gridRows n 2 : ℚ) - a| / a ≤ 100000000 := by
    rw [div_le_iff ha0]
    linarith
  have h2r : 2 * gridRows n 2 ≤ n + 1 := by
    unfold gridRows
    omega
  have h2rq : ((2 * gridRows n 2 : ℕ) : ℚ) - (n : ℚ) ≤ 1 := by
    have : ((2 * gridRows n 2 : ℕ) : ℚ) ≤ (n : ℚ) + 1 := by exact_mod_cast h2r
    linarith
  have hnq : (4 : ℚ) ≤ (n : ℚ) := by exact_mod_cast hn
  have hep : (((2 * gridRows n 2 : ℕ) : ℚ) - (n : ℚ)) / (n : ℚ) * (1 / 2) ≤ 1 := by
    have h1 : (((2 * gridRows n 2 : ℕ) : ℚ) - (n : ℚ)) / (n : ℚ) ≤ 1 := by
      rw [div_le_one (by linarith)]
      linarith
    linarith
  unfold gridScore
  dsimp only
  linarith

/-- What gnomeGrid returns for 1 ≤ n ≤ 20 windows and a reasonable aspect:
between one and six columns, and exactly ceil(n / cols) rows. -/
theorem gnomeGrid_spec (n : ℕ) (a : ℚ) (hn1 : 1 ≤ n) (hn2 : n ≤ 20)
    (ha : (1 : ℚ) / 100000000 ≤ a) :
    1 ≤ (gnomeGrid n a).1 ∧ (gnomeGrid n a).1 ≤ 6 ∧
    (gnomeGrid n a).2 = gridRows n (gnomeGrid n a).1 := by
  by_cases h4 : 4 ≤ n
  · obtain ⟨c, h2c, hc6, heq⟩ := gnomeGrid_candidate n a h4
      ⟨2, by
        rw [List.mem_range'_1]
        omega, gridScore_two_lt n a h4 ha⟩
    rw [heq]
    refine ⟨by omega, by omega, rfl⟩
  · have h3 : n = 1 ∨ n = 2 ∨ n = 3 := by omega
    rcases h3 with h | h | h <;> subst h <;> refine ⟨?_, ?_, ?_⟩ <;> simp [gnomeGrid, gridRows]

theorem length_mapIdxFrom {α β : Type} (f : ℕ → α → β) (k : ℕ) (l : List α) :
    (mapIdxFrom f k l).length = l.length := by
  induction l generalizing k with
  | nil => rfl
  | cons a as ih => simp [mapIdxFrom, ih]

theorem getElem_mapIdxFrom {α β : Type} (f : ℕ → α → β) (k : ℕ) (l : List α) (i : ℕ)
    (h1 : i < (mapIdxFrom f k l).length) (h2 : i < l.length) :
    (mapIdxFrom f k l)[i] = f (k + i) l[i] := by
  induction l generalizing k i with
  | nil => cases h2
  | cons a as ih =>
    cases i with
    | zero => simp [mapIdxFrom]
    | succ j =>
      have h1j : j < (mapIdxFrom f (k + 1) as).length := by
        rw [length_mapIdxFrom]
        simpa using h2
      have h2j : j < as.length := by simpa using h2
      have := ih (k + 1) j h1j h2j
      simp only [mapIdxFrom, List.getElem_cons_succ]
      rw [this]
      congr 1
      omega

-- ===========================================================================
-- Arithmetic facts about the layout
-- ===========================================================================

theorem tdiv_facts (a b : ℤ) (ha : 0 ≤ a) (hb : 0 < b) :
    0 ≤ a.tdiv b ∧ b * a.tdiv b ≤ a ∧ a < b * a.tdiv b + b := by
  rw [Int.div_eq_ediv ha (le_of_lt hb)]
  refine ⟨Int.ediv_nonneg ha (le_of_lt hb), ?_, ?_⟩
  · have h := Int.ediv_add_emod a b
    have h2 := Int.emod_nonneg a (ne_of_gt hb)
    linarith
  · have h := Int.ediv_add_emod a b
    have h3 := Int.emod_lt_of_pos a hb
    linarith

theorem cellW_facts (W sp : ℤ) (cols : ℕ) (hsp : 1 ≤ sp) (hW : 7 * sp ≤ W)
    (hc1 : 1 ≤ cols) (hc6 : cols ≤ 6) :
    0 ≤ cellW W sp cols ∧
    (cols : ℤ) * cellW W sp cols + sp * ((cols : ℤ) - 1) ≤ W - sp * 2 := by
  have hc1z : (1 : ℤ) ≤ (cols : ℤ) := by exact_mod_cast hc1
  have hc6z : (cols : ℤ) ≤ 6 := by exact_mod_cast hc6
  have hnum : 0 ≤ (W - sp * 2) - sp * ((cols : ℤ) - 1) := by nlinarith
  have h := tdiv_facts ((W - sp * 2) - sp * ((cols : ℤ) - 1)) (cols : ℤ) hnum (by omega)
  unfold cellW
  exact ⟨h.1, by linarith [h.2.1]⟩

theorem cellH_facts (H sp : ℤ) (rows : ℕ) (hsp : 1 ≤ sp) (hH : 21 * sp ≤ H)
    (hr1 : 1 ≤ rows) (hr20 : rows ≤ 20) :
    0 ≤ cellH H sp rows ∧
    (rows : ℤ) * cellH H sp rows + sp * ((rows : ℤ) - 1) ≤ H - sp - sp := by
  have hr1z : (1 : ℤ) ≤ (rows : ℤ) := by exact_mod_cast hr1
  have hr20z : (rows : ℤ) ≤ 20 := by exact_mod_cast hr20
  have hnum : 0 ≤ (H - sp - sp) - sp * ((rows : ℤ) - 1) := by nlinarith
  have h := tdiv_facts ((H - sp - sp) - sp * ((rows : ℤ) - 1)) (rows : ℤ) hnum (by omega)
  unfold cellH
  exact ⟨h.1, by linarith [h.2.1]⟩

theorem gridTop_facts (H sp : ℤ) (rows : ℕ) (hsp : 1 ≤ sp) (hH : 21 * sp ≤ H)
    (hr1 : 1 ≤ rows) (hr20 : rows ≤ 20) :
    sp ≤ gridTop H sp rows ∧
    gridTop H sp rows + ((rows : ℤ) * cellH H sp rows + ((rows : ℤ) - 1) * sp) ≤ H - sp := by
  have hch := cellH_facts H sp rows hsp hH hr1 hr20
  have hr1z : (1 : ℤ) ≤ (rows : ℤ) := by exact_mod_cast hr1
  have hgh0 : 0 ≤ (rows : ℤ) * cellH H sp rows + ((rows : ℤ) - 1) * sp := by
    have h1 : 0 ≤ (rows : ℤ) * cellH H sp rows :=
      mul_nonneg (by linarith) hch.1
    nlinarith
  have hghle : (rows : ℤ) * cellH H sp rows + ((rows : ℤ) - 1) * sp ≤ H - sp - sp := by
    nlinarith [hch.2]
  have h := tdiv_facts
    ((H - sp - sp) - ((rows : ℤ) * cellH H sp rows + ((rows : ℤ) - 1) * sp)) 2
    (by linarith) (by norm_num)
  unfold gridTop
  constructor
  · linarith [h.1]
  · linarith [h.2.1]

theorem rowItems_facts (n cols rows i : ℕ) (hc1 : 1 ≤ cols) (hn1 : 1 ≤ n)
    (hr : rows = gridRows n cols) (hi : i < n) :
    (i : ℤ) - ((i / cols : ℕ) : ℤ) * (cols : ℤ) + 1 ≤ rowItems n cols rows (i / cols) ∧
    rowItems n cols rows (i / cols) ≤ (cols : ℤ) ∧
    1 ≤ rowItems n cols rows (i / cols) ∧
    0 ≤ (i : ℤ) - ((i / cols : ℕ) : ℤ) * (cols : ℤ) := by
  have hcpos : 0 < cols := hc1
  have hrowlt : i / cols < rows := by
    rw [hr, Nat.div_lt_iff_lt_mul hcpos]
    calc i < n := hi
    _ ≤ cols * gridRows n cols := le_mul_gridRows n cols hc1
    _ = gridRows n cols * cols := mul_comm _ _
  have hprod : n ≤ cols * rows := by
    rw [hr]
    exact le_mul_gridRows n cols hc1
  have hrows1 : 1 ≤ rows := hr ▸ gridRows_pos n cols hn1 hc1
  unfold rowItems
  set q := i / cols with hq
  have hdm := Nat.div_add_mod i cols
  have hmod := Nat.mod_lt i hcpos
  set m := i % cols with hm
  have hdmz : (cols : ℤ) * (q : ℤ) + (m : ℤ) = (i : ℤ) := by exact_mod_cast hdm
  have hmodz : (m : ℤ) < (cols : ℤ) := by exact_mod_cast hmod
  have hmz : (0 : ℤ) ≤ (m : ℤ) := by positivity
  have hcir0 : 0 ≤ (i : ℤ) - (q : ℤ) * (cols : ℤ) := by linarith
  by_cases hlast : q = rows - 1
  · rw [if_pos hlast]
    have hn2z : (i : ℤ) < (n : ℤ) := by exact_mod_cast hi
    have hup : n ≤ q * cols + cols := by
      have h2 : q + 1 = rows := by omega
      calc n ≤ cols * rows := hprod
      _ = cols * (q + 1) := by rw [h2]
      _ = q * cols + cols := by ring
    have hupz : (n : ℤ) ≤ (q : ℤ) * (cols : ℤ) + (cols : ℤ) := by exact_mod_cast hup
    refine ⟨by linarith, by linarith, by linarith, hcir0⟩
  · rw [if_neg hlast]
    have hc1z : (1 : ℤ) ≤ (cols : ℤ) := by exact_mod_cast hc1
    refine ⟨by linarith, le_refl _, hc1z, hcir0⟩

theorem rowWidth_facts (W sp : ℤ) (n cols rows row : ℕ) (hsp : 1 ≤ sp)
    (hW : 7 * sp ≤ W) (hc1 : 1 ≤ cols) (hc6 : cols ≤ 6)
    (hitr1 : 1 ≤ rowItems n cols rows row) (hitr2 : rowItems n cols rows row ≤ (cols : ℤ)) :
    0 ≤ rowWidth W sp n cols rows row ∧ rowWidth W sp n cols rows row ≤ W - sp * 2 := by
  have hcw := cellW_facts W sp cols hsp hW hc1 hc6
  have hc1z : (1 : ℤ) ≤ (cols : ℤ) := by exact_mod_cast hc1
  unfold rowWidth
  constructor
  · nlinarith [hcw.1]
  · nlinarith [hcw.1, hcw.2,
      mul_nonneg (show (0 : ℤ) ≤ (cols : ℤ) - rowItems n cols rows row by linarith)
        (show (0 : ℤ) ≤ cellW W sp cols + sp by linarith [hcw.1])]

theorem rowStart_facts (W sp : ℤ) (n cols rows row : ℕ) (hsp : 1 ≤ sp)
    (hW : 7 * sp ≤ W) (hc1 : 1 ≤ cols) (hc6 : cols ≤ 6)
    (hitr1 : 1 ≤ rowItems n cols rows row) (hitr2 : rowItems n cols rows row ≤ (cols : ℤ)) :
    0 ≤ rowStart W sp n cols rows row ∧
    rowStart W sp n cols rows row + rowWidth W sp n cols rows row ≤ W := by
  have hrw := rowWidth_facts W sp n cols rows row hsp hW hc1 hc6 hitr1 hitr2
  have h := tdiv_facts (W - rowWidth W sp n cols rows row) 2 (by linarith [hrw.2]) (by norm_num)
  unfold rowStart
  exact ⟨h.1, by linarith [h.1, h.2.1]⟩

/-- Every cell of the grid lies inside the workspace rectangle. -/
theorem gridCell_bounds (W H sp : ℤ) (n cols rows i : ℕ)
    (hsp : 1 ≤ sp) (hW : 7 * sp ≤ W) (hH : 21 * sp ≤ H)
    (hc1 : 1 ≤ cols) (hc6 : cols ≤ 6) (hr : rows = gridRows n cols)
    (hn1 : 1 ≤ n) (hn20 : n ≤ 20) (hi : i < n) :
    0 ≤ (gridCell W H sp n cols rows i).x ∧
    (gridCell W H sp n cols rows i).x + (gridCell W H sp n cols rows i).width ≤ W ∧
    0 ≤ (gridCell W H sp n cols rows i).y ∧
    (gridCell W H sp n cols rows i).y + (gridCell W H sp n cols rows i).height ≤ H ∧
    0 ≤ (gridCell W H sp n cols rows i).width ∧
    0 ≤ (gridCell W H sp n cols rows i).height := by
  have hrows1 : 1 ≤ rows := hr ▸ gridRows_pos n cols hn1 hc1
  have hrows20 : rows ≤ 20 := le_trans (hr ▸ gridRows_le_n n cols hc1) hn20
  have hitr := rowItems_facts n cols rows i hc1 hn1 hr hi
  have hrs := rowStart_facts W sp n cols rows (i / cols) hsp hW hc1 hc6 hitr.2.2.1 hitr.2.1
  have hcw := cellW_facts W sp cols hsp hW hc1 hc6
  have hch := cellH_facts H sp rows hsp hH hrows1 hrows20
  have hgt := gridTop_facts H sp rows hsp hH hrows1 hrows20
  have hrowlt : i / cols < rows := by
    rw [hr, Nat.div_lt_iff_lt_mul hc1]
    calc i < n := hi
    _ ≤ cols * gridRows n cols := le_mul_gridRows n cols hc1
    _ = gridRows n cols * cols := mul_comm _ _
  have hrowz : ((i / cols : ℕ) : ℤ) ≤ (rows : ℤ) - 1 := by
    have : ((i / cols : ℕ) : ℤ) < (rows : ℤ) := by exact_mod_cast hrowlt
    linarith
  have hrow0 : (0 : ℤ) ≤ ((i / cols : ℕ) : ℤ) := by positivity
  unfold gridCell
  simp only
  refine ⟨?_, ?_, ?_, ?_, hcw.1, hch.1⟩
  · have := mul_nonneg hitr.2.2.2 (show (0 : ℤ) ≤ cellW W sp cols + sp by linarith [hcw.1])
    linarith [hrs.1]
  · -- cir*(cw+sp) + cw ≤ rowWidth, then use rowStart bound
    have hkey : ((i : ℤ) - ((i / cols : ℕ) : ℤ) * (cols : ℤ)) * (cellW W sp cols + sp) +
        cellW W sp cols ≤ rowWidth W sp n cols rows (i / cols) := by
      unfold rowWidth
      nlinarith [mul_nonneg
        (show (0 : ℤ) ≤ rowItems n cols rows (i / cols) - 1 -
            ((i : ℤ) - ((i / cols : ℕ) : ℤ) * (cols : ℤ)) by linarith [hitr.1])
        (show (0 : ℤ) ≤ cellW W sp cols + sp by linarith [hcw.1])]
    linarith [hrs.2]
  · have := mul_nonneg hrow0 (show (0 : ℤ) ≤ cellH H sp rows + sp by linarith [hch.1])
    linarith [hgt.1]
  · have hkey : ((i / cols : ℕ) : ℤ) * (cellH H sp rows + sp) + cellH H sp rows ≤
        (rows : ℤ) * cellH H sp rows + ((rows : ℤ) - 1) * sp := by
      nlinarith [mul_nonneg
        (show (0 : ℤ) ≤ (rows : ℤ) - 1 - ((i / cols : ℕ) : ℤ) by linarith)
        (show (0 : ℤ) ≤ cellH H sp rows + sp by linarith [hch.1])]
    linarith [hgt.2]

/-- Cells of two distinct windows never overlap: same-row cells are
separated horizontally by at least cw + spacing, different rows vertically
by at least ch + spacing. -/
theorem gridCell_disjoint (W H sp : ℤ) (n cols rows i j : ℕ)
    (hsp : 1 ≤ sp) (hW : 7 * sp ≤ W) (hH : 21 * sp ≤ H)
    (hc1 : 1 ≤ cols) (hc6 : cols ≤ 6) (hr : rows = gridRows n cols)
    (hn1 : 1 ≤ n) (hn20 : n ≤ 20) (hi : i < n) (hj : j < n) (hij : i ≠ j) :
    ¬ geoOverlap (gridCell W H sp n cols rows i) (gridCell W H sp n cols rows j) := by
  have hrows1 : 1 ≤ rows := hr ▸ gridRows_pos n cols hn1 hc1
  have hrows20 : rows ≤ 20 := le_trans (hr ▸ gridRows_le_n n cols hc1) hn20
  have hcw := cellW_facts W sp cols hsp hW hc1 hc6
  have hch := cellH_facts H sp rows hsp hH hrows1 hrows20
  intro hov
  simp only [geoOverlap, gridCell] at hov
  obtain ⟨h1, h2, h3, h4⟩ := hov
  by_cases hrow : i / cols = j / cols
  · rw [hrow] at h1 h2 h3 h4
    have hijz : (i : ℤ) ≠ (j : ℤ) := by exact_mod_cast hij
    rcases lt_trichotomy ((i : ℤ) - ((j / cols : ℕ) : ℤ) * (cols : ℤ))
        ((j : ℤ) - ((j / cols : ℕ) : ℤ) * (cols : ℤ)) with hlt | heq | hgt
    · have hsep : cellW W sp cols + sp ≤
          (((j : ℤ) - ((j / cols : ℕ) : ℤ) * (cols : ℤ)) -
           ((i : ℤ) - ((j / cols : ℕ) : ℤ) * (cols : ℤ))) * (cellW W sp cols + sp) :=
        le_mul_of_one_le_left (by linarith [hcw.1]) (by linarith)
      linarith [h2, hsep]
    · exact hijz (by linarith)
    · have hsep : cellW W sp cols + sp ≤
          (((i : ℤ) - ((j / cols : ℕ) : ℤ) * (cols : ℤ)) -
           ((j : ℤ) - ((j / cols : ℕ) : ℤ) * (cols : ℤ))) * (cellW W sp cols + sp) :=
        le_mul_of_one_le_left (by linarith [hcw.1]) (by linarith)
      linarith [h1, hsep]
  · rcases Nat.lt_or_ge (i / cols) (j / cols) with hlt | hge
    · have hz : ((i / cols : ℕ) : ℤ) + 1 ≤ ((j / cols : ℕ) : ℤ) := by exact_mod_cast hlt
      have hsep : cellH H sp rows + sp ≤
          (((j / cols : ℕ) : ℤ) - ((i / cols : ℕ) : ℤ)) * (cellH H sp rows + sp) :=
        le_mul_of_one_le_left (by linarith [hch.1]) (by linarith)
      linarith [h4, hsep]
    · have hlt2 : j / cols < i / cols := by omega
      have hz : ((j / cols : ℕ) : ℤ) + 1 ≤ ((i / cols : ℕ) : ℤ) := by exact_mod_cast hlt2
      have hsep : cellH H sp rows + sp ≤
          (((i / cols : ℕ) : ℤ) - ((j / cols : ℕ) : ℤ)) * (cellH H sp rows + sp) :=
        le_mul_of_one_le_left (by linarith [hch.1]) (by linarith)
      linarith [h3, hsep]

/-- The scaled, centered window rectangle stays inside the workspace
rectangle whenever its cell does and the original dimensions are
positive. -/
theorem fitInCell_inside (cell orig : Geo) (W H : ℤ)
    (hx0 : 0 ≤ cell.x) (hxw : cell.x + cell.width ≤ W)
    (hy0 : 0 ≤ cell.y) (hyh : cell.y + cell.height ≤ H)
    (hw : 0 ≤ cell.width) (hh : 0 ≤ cell.height)
    (how : 0 < orig.width) (hoh : 0 < orig.height) :
    geoInside (fitInCell cell orig) ⟨0, 0, W, H⟩ := by
  have howq : (0 : ℚ) < (orig.width : ℚ) := by exact_mod_cast how
  have hohq : (0 : ℚ) < (orig.height : ℚ) := by exact_mod_cast hoh
  have hwq : (0 : ℚ) ≤ (cell.width : ℚ) := by exact_mod_cast hw
  have hhq : (0 : ℚ) ≤ (cell.height : ℚ) := by exact_mod_cast hh
  simp only [geoInside, fitInCell]
  set sc : ℚ := min ((cell.width : ℚ) / (orig.width : ℚ))
      ((cell.height : ℚ) / (orig.height : ℚ)) * (95 / 100) with hscdef
  have hsc0 : 0 ≤ sc := by
    apply mul_nonneg _ (by norm_num)
    exact le_min (div_nonneg hwq (le_of_lt howq)) (div_nonneg hhq (le_of_lt hohq))
  have hswq : (orig.width : ℚ) * sc ≤ (cell.width : ℚ) := by
    rw [hscdef]
    have hstep : (orig.width : ℚ) *
        (min ((cell.width : ℚ) / (orig.width : ℚ)) ((cell.height : ℚ) / (orig.height : ℚ)) *
          (95 / 100)) ≤
        (orig.width : ℚ) * ((cell.width : ℚ) / (orig.width : ℚ) * (95 / 100)) :=
      mul_le_mul_of_nonneg_left
        (mul_le_mul_of_nonneg_right (min_le_left _ _) (by norm_num)) (le_of_lt howq)
    have heq : (orig.width : ℚ) * ((cell.width : ℚ) / (orig.width : ℚ) * (95 / 100)) =
        (cell.width : ℚ) * (95 / 100) := by
      field_simp
      ring
    have hle : (cell.width : ℚ) * (95 / 100) ≤ (cell.width : ℚ) :=
      mul_le_of_le_one_right hwq (by norm_num)
    linarith
  have hshq : (orig.height : ℚ) * sc ≤ (cell.height : ℚ) := by
    rw [hscdef]
    have hstep : (orig.height : ℚ) *
        (min ((cell.width : ℚ) / (orig.width : ℚ)) ((cell.height : ℚ) / (orig.height : ℚ)) *
          (95 / 100)) ≤
        (orig.height : ℚ) * ((cell.height : ℚ) / (orig.height : ℚ) * (95 / 100)) :=
      mul_le_mul_of_nonneg_left
        (mul_le_mul_of_nonneg_right (min_le_right _ _) (by norm_num)) (le_of_lt hohq)
    have heq : (orig.height : ℚ) * ((cell.height : ℚ) / (orig.height : ℚ) * (95 / 100)) =
        (cell.height : ℚ) * (95 / 100) := by
      field_simp
      ring
    have hle : (cell.height : ℚ) * (95 / 100) ≤ (cell.height : ℚ) :=
      mul_le_of_le_one_right hhq (by norm_num)
    linarith
  have hswnn : 0 ≤ (orig.width : ℚ) * sc := mul_nonneg (le_of_lt howq) hsc0
  have hshnn : 0 ≤ (orig.height : ℚ) * sc := mul_nonneg (le_of_lt hohq) hsc0
  have hsw0 : 0 ≤ ratTrunc ((orig.width : ℚ) * sc) := by
    rw [ratTrunc_of_nonneg hswnn]
    exact Int.floor_nonneg.mpr hswnn
  have hsh0 : 0 ≤ ratTrunc ((orig.height : ℚ) * sc) := by
    rw [ratTrunc_of_nonneg hshnn]
    exact Int.floor_nonneg.mpr hshnn
  have hswle : ratTrunc ((orig.width : ℚ) * sc) ≤ cell.width := by
    rw [ratTrunc_of_nonneg hswnn]
    have hfl := Int.floor_le_floor hswq
    rwa [Int.floor_intCast] at hfl
  have hshle : ratTrunc ((orig.height : ℚ) * sc) ≤ cell.height := by
    rw [ratTrunc_of_nonneg hshnn]
    have hfl := Int.floor_le_floor hshq
    rwa [Int.floor_intCast] at hfl
  have hdx := tdiv_facts (cell.width - ratTrunc ((orig.width : ℚ) * sc)) 2
    (by linarith) (by norm_num)
  have hdy := tdiv_facts (cell.height - ratTrunc ((orig.height : ℚ) * sc)) 2
    (by linarith) (by norm_num)
  refine ⟨by linarith [hdx.1], by linarith [hdx.1, hdx.2.1], by linarith [hdy.1],
    by linarith [hdy.1, hdy.2.1]⟩

-- ===========================================================================
-- Claims C1, C2, C4
-- ===========================================================================

/-- C1 counterexample: for 4 windows at aspect 16:9 the search does not
return cols = 2, rows = 2; the cols = 3 candidate scores 13/32, strictly
below the 7/16 of cols = 2, so the claimed output is wrong. -/
theorem C1_counterexample : gnomeGrid 4 (16 / 9) ≠ (2, 2) := by
  norm_num [gnomeGrid, gridStep, gridScore, gridRows, List.range', absIte]

/-- C1 (amended): for 4 windows and a preview-area aspect of 16:9, the
grid-selection search of gnome_grid chooses cols = 3 and rows = 2. -/
theorem C1_theorem : gnomeGrid 4 (16 / 9) = (3, 2) := by
  norm_num [gnomeGrid, gridStep, gridScore, gridRows, List.range', absIte]

theorem applyOp_inv {a : Anim} (h : a.animating = false → a.val = a.goal) (op : AnimOp) :
    (a.applyOp op).animating = false → (a.applyOp op).val = (a.applyOp op).goal := by
  cases op with
  | animateTo now g => simp [Anim.applyOp, Anim.animateTo]
  | warp v => simp [Anim.applyOp, Anim.warp]
  | setDuration ms =>
    simpa [Anim.applyOp, Anim.setDuration] using h
  | tick now =>
    simp only [Anim.applyOp, Anim.tick]
    by_cases hA : a.animating
    · simp only [hA, if_true]
      split
      · intro _
        rfl
      · simp [hA]
    · rw [if_neg hA]
      exact h

/-- C2 counterexample: calling animate_to with a goal equal to the current
value leaves animating set while value already equals goal, so the claimed
iff fails after the one-call sequence [animate_to(5)] on anim_t(5). -/
theorem C2_counterexample :
    ¬ ((((Anim.init 5).runOps [AnimOp.animateTo 0 5]).animating = false) ↔
       ((Anim.init 5).runOps [AnimOp.animateTo 0 5]).val =
         ((Anim.init 5).runOps [AnimOp.animateTo 0 5]).goal) := by
  simp [Anim.runOps, Anim.applyOp, Anim.animateTo, Anim.init]

/-- C2 (amended): along every sequence of animate_to, warp, tick and
set_duration calls on an anim_t, whenever the animating flag is false the
value equals the goal.  (The converse direction is refuted by
C2_counterexample: animate_to to the current value raises the flag without
changing the value.) -/
theorem C2_theorem (v : ℚ) (ops : List AnimOp)
    (h : ((Anim.init v).runOps ops).animating = false) :
    ((Anim.init v).runOps ops).val = ((Anim.init v).runOps ops).goal := by
  suffices H : ∀ (a : Anim), (a.animating = false → a.val = a.goal) →
      ((a.runOps ops).animating = false → (a.runOps ops).val = (a.runOps ops).goal) by
    exact H (Anim.init v) (fun _ => rfl) h
  clear h
  induction ops with
  | nil => intro a ha; exact ha
  | cons op ops ih =>
    intro a ha
    exact ih (a.applyOp op) (applyOp_inv ha op)

/-- C2 witness: a concrete run ending in a non-animating state. -/
theorem C2_witness :
    ((Anim.init 0).runOps [AnimOp.warp 3]).val = ((Anim.init 0).runOps [AnimOp.warp 3]).goal :=
  C2_theorem 0 [AnimOp.warp 3] rfl

/-- C4: for any anim_t with positive configured duration, a tick whose
wall-clock elapsed time since animate_to is at least the duration snaps the
value exactly to the goal and clears the animating flag. -/
theorem C4_theorem (a : Anim) (t0 g t1 : ℚ) (hd : 0 < a.durationMs)
    (ht : a.durationMs ≤ t1 - t0) :
    ((a.animateTo t0 g).tick t1).val = g ∧ ((a.animateTo t0 g).tick t1).animating = false := by
  have h1 : (1 : ℚ) ≤ (t1 - t0) / a.durationMs := by
    rw [le_div_iff hd]
    linarith
  unfold Anim.tick Anim.animateTo
  simp only [if_true]
  rw [if_pos (one_le_clampQ h1)]
  exact ⟨rfl, rfl⟩

/-- C4 witness: duration 300 starting at time 0 reaches its goal at tick
time 300. -/
theorem C4_witness :
    (((Anim.init 0).animateTo 0 5).tick 300).val = 5 ∧
    (((Anim.init 0).animateTo 0 5).tick 300).animating = false :=
  C4_theorem (Anim.init 0) 0 5 300 (by norm_num [Anim.init]) (by norm_num [Anim.init])

-- ===========================================================================
-- Claim C3
-- ===========================================================================

/-- C3 counterexample: at the positive aspect 1/2000000000 every candidate
score for n = 5 exceeds the 1e9 sentinel, the loop never replaces the
initial best = (2, 1), and 2*1 < 5: the grid does not accommodate all
windows for every positive aspect. -/
theorem C3_counterexample :
    (gnomeGrid 5 (1 / 2000000000)).1 * (gnomeGrid 5 (1 / 2000000000)).2 < 5 := by
  norm_num [gnomeGrid, gridStep, gridScore, gridRows, List.range', absIte]

/-- C3 (amended): for 1 ≤ n ≤ 20 windows and any preview aspect that is at
least 1e-8 (the claim fails for astronomically thin aspects, see
C3_counterexample), in a workspace W x H with spacing sp (sp ≥ 1,
W ≥ 7*sp, H ≥ 21*sp, satisfied by the defaults 1920x1080 with spacing 20):
the chosen grid has cols*rows ≥ n, cells of distinct windows do not
overlap, and every target rectangle of arrange_ws_windows lies inside the
workspace rectangle mapped onto the preview area. -/
theorem C3_theorem (W H sp : ℤ) (a : ℚ) (origs : List Geo)
    (hn1 : 1 ≤ origs.length) (hn20 : origs.length ≤ 20)
    (ha : (1 : ℚ) / 100000000 ≤ a)
    (hsp : 1 ≤ sp) (hW : 7 * sp ≤ W) (hH : 21 * sp ≤ H)
    (hpos : ∀ o ∈ origs, 0 < o.width ∧ 0 < o.height) :
    origs.length ≤ (gnomeGrid origs.length a).1 * (gnomeGrid origs.length a).2 ∧
    (∀ i j, i < origs.length → j < origs.length → i ≠ j →
      ¬ geoOverlap
        (gridCell W H sp origs.length (gnomeGrid origs.length a).1
          (gnomeGrid origs.length a).2 i)
        (gridCell W H sp origs.length (gnomeGrid origs.length a).1
          (gnomeGrid origs.length a).2 j)) ∧
    (∀ i (h1 : i < (layoutTargets W H sp a origs).length),
      geoInside (layoutTargets W H sp a origs)[i] ⟨0, 0, W, H⟩) := by
  obtain ⟨hc1, hc6, hrows⟩ := gnomeGrid_spec origs.length a hn1 hn20 ha
  refine ⟨?_, ?_, ?_⟩
  · have h := le_mul_gridRows origs.length (gnomeGrid origs.length a).1 hc1
    rw [hrows]
    exact h
  · intro i j hi hj hij
    exact gridCell_disjoint W H sp origs.length (gnomeGrid origs.length a).1
      (gnomeGrid origs.length a).2 i j hsp hW hH hc1 hc6 hrows hn1 hn20 hi hj hij
  · intro i h1
    have h2 : i < origs.length := by
      have h1l := h1
      simp only [layoutTargets, length_mapIdxFrom] at h1l
      exact h1l
    simp only [layoutTargets]
    rw [getElem_mapIdxFrom _ 0 origs i
      (by simpa only [layoutTargets, length_mapIdxFrom] using h1) h2]
    simp only [Nat.zero_add]
    have hcell := gridCell_bounds W H sp origs.length (gnomeGrid origs.length a).1
      (gnomeGrid origs.length a).2 i hsp hW hH hc1 hc6 hrows hn1 hn20 h2
    have hod := hpos origs[i] (List.getElem_mem h2)
    exact fitInCell_inside _ _ W H hcell.1 hcell.2.1 hcell.2.2.1 hcell.2.2.2.1
      hcell.2.2.2.2.1 hcell.2.2.2.2.2 hod.1 hod.2

/-- C3 witness: four windows, aspect 16:9, the default 1920x1080 preview
with spacing 20. -/
theorem C3_witness :
    let origs : List Geo := [⟨0, 0, 800, 600⟩, ⟨10, 10, 640, 480⟩, ⟨0, 0, 1920, 1080⟩,
      ⟨5, 5, 300, 900⟩]
    origs.length ≤ (gnomeGrid origs.length (16 / 9)).1 * (gnomeGrid origs.length (16 / 9)).2 ∧
    (∀ i j, i < origs.length → j < origs.length → i ≠ j →
      ¬ geoOverlap
        (gridCell 1920 1080 20 origs.length (gnomeGrid origs.length (16 / 9)).1
          (gnomeGrid origs.length (16 / 9)).2 i)
        (gridCell 1920 1080 20 origs.length (gnomeGrid origs.length (16 / 9)).1
          (gnomeGrid origs.length (16 / 9)).2 j)) ∧
    (∀ i (h1 : i < (layoutTargets 1920 1080 20 (16 / 9) origs).length),
      geoInside (layoutTargets 1920 1080 20 (16 / 9) origs)[i] ⟨0, 0, 1920, 1080⟩) :=
  C3_theorem 1920 1080 20 (16 / 9)
    [⟨0, 0, 800, 600⟩, ⟨10, 10, 640, 480⟩, ⟨0, 0, 1920, 1080⟩, ⟨5, 5, 300, 900⟩]
    (by decide) (by decide) (by norm_num) (by decide) (by decide) (by decide)
    (by decide)

-- ===========================================================================
-- Supporting lemmas about the state machine
-- ===========================================================================

theorem getD_set_self {α : Type} (l : List α) (n : ℕ) (a d : α) (h : n < l.length) :
    (l.set n a).getD n d = a := by
  rw [List.getD_eq_getElem?_getD, List.getElem?_set_self h]
  rfl

theorem getD_set_ne {α : Type} (l : List α) {i n : ℕ} (a d : α) (h : i ≠ n) :
    (l.set n a).getD i d = l.getD i d := by
  rw [List.getD_eq_getElem?_getD, List.getElem?_set_ne (fun he => h he.symm),
    ← List.getD_eq_getElem?_getD]

theorem mapIdxFrom_map_eq {α β : Type} (f : ℕ → α → α) (g : α → β) (k : ℕ) (l : List α)
    (hf : ∀ i a, g (f i a) = g a) : (mapIdxFrom f k l).map g = l.map g := by
  induction l generalizing k with
  | nil => rfl
  | cons a as ih => simp [mapIdxFrom, hf, ih]

theorem mem_mapIdxFrom {α β : Type} (f : ℕ → α → β) (k : ℕ) (l : List α) (b : β)
    (hb : b ∈ mapIdxFrom f k l) : ∃ i a, a ∈ l ∧ b = f i a := by
  induction l generalizing k with
  | nil => cases hb
  | cons a as ih =>
    rcases List.mem_cons.mp hb with h | h
    · exact ⟨k, a, List.mem_cons_self a as, h⟩
    · obtain ⟨i, a2, ha2, hb2⟩ := ih (k + 1) h
      exact ⟨i, a2, List.mem_cons_of_mem a ha2, hb2⟩

theorem Anim.tick_of_not_animating {a : Anim} (h : a.animating = false) (now : ℚ) :
    a.tick now = a := by
  unfold Anim.tick
  rw [if_neg (by simp [h])]

/-- A component with positive duration started (or last retargeted) at
startTime is finished once tick runs at or past startTime + duration. -/
theorem Anim.tick_done (a : Anim) (t2 : ℚ) (hd : 0 < a.durationMs)
    (ht : a.startTime + a.durationMs ≤ t2) :
    (a.tick t2).animating = false ∧ (a.animating = true → (a.tick t2).val = a.goal) := by
  unfold Anim.tick
  by_cases hA : a.animating
  · rw [if_pos hA]
    have h1 : (1 : ℚ) ≤ (t2 - a.startTime) / a.durationMs := by
      rw [le_div_iff₀ hd]
      linarith
    rw [if_pos (one_le_clampQ h1)]
    exact ⟨rfl, fun _ => rfl⟩
  · rw [if_neg hA]
    exact ⟨by simpa using hA, fun h => absurd h hA⟩

theorem updateTransformer_anim (sl : WindowSlot) : sl.updateTransformer.anim = sl.anim := by
  unfold WindowSlot.updateTransformer
  rcases sl.transformer with _ | tr
  · rfl
  · simp only
    split <;> rfl

theorem updateTransformer_view (sl : WindowSlot) : sl.updateTransformer.view = sl.view := by
  unfold WindowSlot.updateTransformer
  rcases sl.transformer with _ | tr
  · rfl
  · simp only
    split <;> rfl

theorem updateTransformer_origGeo (sl : WindowSlot) :
    sl.updateTransformer.origGeo = sl.origGeo := by
  unfold WindowSlot.updateTransformer
  rcases sl.transformer with _ | tr
  · rfl
  · simp only
    split <;> rfl

theorem startAnim_view (sl : WindowSlot) (e : Bool) (d now : ℚ) :
    (sl.startAnim e d now).view = sl.view := by
  unfold WindowSlot.startAnim
  split <;> rfl

theorem startAnim_origGeo (sl : WindowSlot) (e : Bool) (d now : ℚ) :
    (sl.startAnim e d now).origGeo = sl.origGeo := by
  unfold WindowSlot.startAnim
  split <;> rfl

-- Shape lemmas: these operations only replace the wsWindows field.

theorem arrangeWsWindows_shape (s : ActView) (wi : ℕ) :
    ∃ X, s.arrangeWsWindows wi = { s with wsWindows := X } := ⟨_, rfl⟩

theorem attachTransformersForWs_shape (s : ActView) (wi : ℕ) (now : ℚ) :
    ∃ X, s.attachTransformersForWs wi now = { s with wsWindows := X } := ⟨_, rfl⟩

theorem detachTransformersForWs_shape (s : ActView) (wi : ℕ) :
    ∃ X, s.detachTransformersForWs wi = { s with wsWindows := X } := ⟨_, rfl⟩

theorem foldl_wsWindows_shape (f : ActView → ℕ → ActView)
    (hf : ∀ st i, ∃ X, f st i = { st with wsWindows := X }) (l : List ℕ) (s : ActView) :
    ∃ X, l.foldl f s = { s with wsWindows := X } := by
  induction l generalizing s with
  | nil => exact ⟨s.wsWindows, rfl⟩
  | cons x xs ih =>
    obtain ⟨X0, h0⟩ := hf s x
    obtain ⟨X1, h1⟩ := ih (f s x)
    refine ⟨X1, ?_⟩
    rw [List.foldl_cons, h1, h0]

theorem cleanupAll_shape (s : ActView) : s.cleanupAll = { s with wsWindows := [] } := by
  unfold ActView.cleanupAll
  obtain ⟨X, hX⟩ := foldl_wsWindows_shape (fun st wi => st.detachTransformersForWs wi)
    (fun st i => detachTransformersForWs_shape st i) (List.range s.wsWindows.length) s
  rw [hX]

theorem arrange_shape (s : ActView) :
    ∃ G P C X, s.arrange = { s with
      wsGeos := G, previewGeo := P, carouselGap := C, wsWindows := X } := by
  unfold ActView.arrange
  obtain ⟨X, hX⟩ := foldl_wsWindows_shape (fun st wi => st.arrangeWsWindows wi)
    (fun st i => arrangeWsWindows_shape st i) (List.range s.totalWs) _
  exact ⟨_, _, _, X, hX⟩

theorem rearrangeWs_drag (s : ActView) (wi : ℕ) (now : ℚ) :
    (s.rearrangeWs wi now).drag = s.drag := by
  unfold ActView.rearrangeWs
  split <;> rfl

theorem addViewToWs_drag (s : ActView) (v : ViewT) (wi : ℕ) (now : ℚ) :
    (s.addViewToWs v wi now).drag = s.drag := by
  unfold ActView.addViewToWs
  split
  · rfl
  · split
    · exact rearrangeWs_drag _ wi now
    · rfl

-- ===========================================================================
-- Claim C8
-- ===========================================================================

/-- C8: activate while already active leaves the entire state unchanged,
and deactivate while inactive likewise. -/
theorem C8_theorem :
    (∀ (s : ActView) (now : ℚ) (gw gh : ℕ) (cur : WsPoint) (views : List ViewT),
      s.isActive = true → s.activate now gw gh cur views = s) ∧
    (∀ (s : ActView) (now : ℚ), s.isActive = false → s.deactivate now = s) := by
  constructor
  · intro s now gw gh cur views h
    unfold ActView.activate
    rw [if_pos h]
  · intro s now h
    unfold ActView.deactivate
    rw [if_pos h]

/-- C8 witness: a concrete already-active state and a concrete inactive
state. -/
theorem C8_witness :
    ({ ActView.initial ⟨0, 0, 1920, 1080⟩ with isActive := true } : ActView).activate 0 2 1
        ⟨0, 0⟩ [] =
      ({ ActView.initial ⟨0, 0, 1920, 1080⟩ with isActive := true } : ActView) ∧
    (ActView.initial ⟨0, 0, 1920, 1080⟩).deactivate 0 = ActView.initial ⟨0, 0, 1920, 1080⟩ :=
  ⟨C8_theorem.1 _ 0 2 1 ⟨0, 0⟩ [] rfl, C8_theorem.2 _ 0 rfl⟩

-- ===========================================================================
-- Claim C6
-- ===========================================================================

/-- C6: end_drag's drop resolution never targets the source (focused)
workspace, a valid hovered thumbnail takes priority over any large
preview, and the drag session is cleared on every path. -/
theorem C6_theorem :
    (∀ (s : ActView) (sl gp : Ptf), s.dropTarget sl gp ≠ some s.focusedWs) ∧
    (∀ (s : ActView) (sl gp : Ptf) (tw : ℕ), s.findThumbWsAt gp = some tw →
      tw ≠ s.focusedWs → s.dropTarget sl gp = some tw) ∧
    (∀ (s : ActView) (sl gp : Ptf) (now : ℚ), (s.endDrag sl gp now).drag.active = false) := by
  refine ⟨?_, ?_, ?_⟩
  · intro s sl gp
    unfold ActView.dropTarget
    rcases s.findLargeWsAt sl with _ | l <;> rcases s.findThumbWsAt gp with _ | t <;>
      dsimp only <;> (try split_ifs) <;> simp_all
  · intro s sl gp tw h1 h2
    unfold ActView.dropTarget
    rw [h1]
    dsimp only
    rw [if_pos h2]
  · intro s sl gp now
    unfold ActView.endDrag
    by_cases hA : s.drag.active = false
    · rw [if_pos hA]
      exact hA
    · rw [if_neg hA]
      rcases s.dropTarget sl gp with _ | at_ <;> rcases s.drag.view with _ | mv <;> dsimp only
      · simp [DragState.reset]
      · simp [DragState.reset]
      · simp [DragState.reset]
      · rw [addViewToWs_drag, ActView.rearrangeFocusedWs, rearrangeWs_drag]
        simp [DragState.reset]

/-- C6 witness: a concrete dragging state whose cursor hovers workspace 1's
thumbnail while workspace 0 is focused. -/
theorem C6_witness :
    ({ ActView.initial ⟨0, 0, 100, 100⟩ with
        wsGeos := [⟨0, 0, 10, 10⟩, ⟨20, 0, 10, 10⟩] } : ActView).dropTarget ⟨0, 0⟩ ⟨25, 95⟩ =
      some 1 :=
  C6_theorem.2.1 _ ⟨0, 0⟩ ⟨25, 95⟩ 1
    (by norm_num [ActView.findThumbWsAt, ActView.initial, ptInGeoF, List.range_succ,
      List.find?]) (by decide)

theorem entrySlot_pos (og : Geo) (cur wsp : WsPoint) (v : ViewT) :
    0 < (entrySlot og cur wsp v).origGeo.width ∧ 0 < (entrySlot og cur wsp v).origGeo.height := by
  unfold entrySlot WindowSlot.fresh
  constructor <;> dsimp only <;> split <;> omega

theorem foldl_preserves {P : ActView → Prop} (f : ActView → ℕ → ActView)
    (hf : ∀ st i, P st → P (f st i)) (l : List ℕ) (s : ActView) (h : P s) :
    P (l.foldl f s) := by
  induction l generalizing s with
  | nil => exact h
  | cons x xs ih => exact ih (f s x) (hf s x h)

theorem slotsPosL_layoutSlots (W H sp : ℤ) (a : ℚ) (slots : List WindowSlot)
    (h : ∀ sl ∈ slots, 0 < sl.origGeo.width ∧ 0 < sl.origGeo.height) :
    ∀ sl ∈ layoutSlots W H sp a slots, 0 < sl.origGeo.width ∧ 0 < sl.origGeo.height := by
  intro sl hsl
  obtain ⟨i, a2, ha2, rfl⟩ := mem_mapIdxFrom _ _ _ _ hsl
  exact h a2 ha2

theorem slotsPosL_arrangeWsList (W H sp : ℤ) (a : ℚ) (ws : List WsWindowData) (wi : ℕ)
    (h : slotsPosL ws) : slotsPosL (arrangeWsList W H sp a ws wi) := by
  unfold arrangeWsList
  by_cases h1 : wi < ws.length
  · rw [if_pos h1]
    dsimp only
    split
    · exact h
    · intro wd hwd sl hsl
      rcases List.mem_or_eq_of_mem_set hwd with hin | heq
      · exact h wd hin sl hsl
      · subst heq
        refine slotsPosL_layoutSlots W H sp a _ ?_ sl hsl
        intro sl2 hsl2
        refine h (ws.getD wi default) ?_ sl2 hsl2
        rw [List.getD_eq_getElem ws default h1]
        exact List.getElem_mem h1
  · rw [if_neg h1]
    exact h

theorem slotsPosL_attachWsList (d now : ℚ) (ws : List WsWindowData) (wi : ℕ)
    (h : slotsPosL ws) : slotsPosL (attachWsList d now ws wi) := by
  unfold attachWsList
  by_cases h1 : wi < ws.length
  · rw [if_pos h1]
    dsimp only
    split
    · exact h
    · intro wd hwd sl hsl
      rcases List.mem_or_eq_of_mem_set hwd with hin | heq
      · exact h wd hin sl hsl
      · subst heq
        simp only [List.mem_map] at hsl
        obtain ⟨sl0, hsl0, rfl⟩ := hsl
        have hmem : (ws.getD wi default) ∈ ws := by
          rw [List.getD_eq_getElem ws default h1]
          exact List.getElem_mem h1
        have h0 := h _ hmem sl0 hsl0
        split
        · rw [startAnim_origGeo]
          exact h0
        · exact h0
  · rw [if_neg h1]
    exact h

theorem slotsPosL_arrange (s : ActView) (h : slotsPosL s.wsWindows) :
    slotsPosL s.arrange.wsWindows := by
  unfold ActView.arrange
  exact foldl_preserves (fun st wi => st.arrangeWsWindows wi)
    (fun st i hp => slotsPosL_arrangeWsList _ _ _ _ _ i hp) _ _ h

theorem slotsPosL_attach_foldl (now : ℚ) (l : List ℕ) (s : ActView)
    (h : slotsPosL s.wsWindows) :
    slotsPosL ((l.foldl (fun st i => st.attachTransformersForWs i now) s).wsWindows) :=
  foldl_preserves (fun st i => st.attachTransformersForWs i now)
    (fun st i hp => slotsPosL_attachWsList _ _ _ i hp) l s h

/-- The activate body after the is_active guard, spelled out once so later
proofs can rewrite with it. -/
theorem activate_eq (s : ActView) (now : ℚ) (gw gh : ℕ) (cur : WsPoint)
    (views : List ViewT) (h : s.isActive = false) :
    s.activate now gw gh cur views =
      (let s1 : ActView := { s with
         isActive := true, isAnimating := true, drag := s.drag.reset,
         wsCols := gw, wsRows := gh, totalWs := gw * gh,
         curWs := cur, origWs := cur, focusedWs := wsPointToIndex gw cur,
         wsWindows := (List.range (gw * gh)).map (fun i =>
           (⟨(getViewsOnWorkspace s.og cur views (wsIndexToPoint gw i)).map
               (fun tv => entrySlot s.og cur (wsIndexToPoint gw i) tv),
             false⟩ : WsWindowData)) }
       let s2 := s1.arrange
       let s3 := (List.range (gw * gh)).foldl (fun st i => st.attachTransformersForWs i now) s2
       let s4 := { s3 with carouselScroll :=
         (s3.carouselScroll.setDuration s3.animDuration).warp (s3.scrollTargetFor s3.focusedWs) }
       { s4 with desktopAnim :=
         (s4.desktopAnim.warp ⟨0, 0, s.og.width, s.og.height⟩).animateTo now s4.previewGeo }) := by
  unfold ActView.activate
  rw [if_neg (by simp [h])]

theorem activate_slotsPos (s : ActView) (now : ℚ) (gw gh : ℕ) (cur : WsPoint)
    (views : List ViewT) (h : s.isActive = false) :
    slotsPosL ((s.activate now gw gh cur views).wsWindows) := by
  rw [activate_eq s now gw gh cur views h]
  refine slotsPosL_attach_foldl now _ _ (slotsPosL_arrange _ ?_)
  intro wd hwd sl hsl
  simp only [List.mem_map] at hwd
  obtain ⟨i, _, rfl⟩ := hwd
  simp only [List.mem_map] at hsl
  obtain ⟨tv, _, rfl⟩ := hsl
  exact entrySlot_pos s.og cur (wsIndexToPoint gw i) tv

theorem slotsPosL_rearrangeWs (s : ActView) (wi : ℕ) (now : ℚ)
    (h : slotsPosL s.wsWindows) : slotsPosL ((s.rearrangeWs wi now).wsWindows) := by
  unfold ActView.rearrangeWs
  split
  · dsimp only
    intro wd hwd sl hsl
    have hs1 : slotsPosL (s.arrangeWsWindows wi).wsWindows :=
      slotsPosL_arrangeWsList _ _ _ _ _ wi h
    rcases List.mem_or_eq_of_mem_set hwd with hin | heq
    · exact hs1 wd hin sl hsl
    · subst heq
      simp only [List.mem_map] at hsl
      obtain ⟨sl0, hsl0, rfl⟩ := hsl
      by_cases h2 : wi < (s.arrangeWsWindows wi).wsWindows.length
      · have hmem : ((s.arrangeWsWindows wi).wsWindows.getD wi default) ∈
            (s.arrangeWsWindows wi).wsWindows := by
          rw [List.getD_eq_getElem _ default h2]
          exact List.getElem_mem h2
        exact hs1 _ hmem sl0 hsl0
      · rw [List.getD_eq_default _ default (by omega)] at hsl0
        cases hsl0
  · exact h

theorem addViewToWs_slotsPos (s : ActView) (v : ViewT) (wi : ℕ) (now : ℚ)
    (h : slotsPosL s.wsWindows) : slotsPosL ((s.addViewToWs v wi now).wsWindows) := by
  unfold ActView.addViewToWs
  split
  · exact h
  · split
    · refine slotsPosL_rearrangeWs _ wi now ?_
      intro wd hwd sl hsl
      rcases List.mem_or_eq_of_mem_set hwd with hin | heq
      · exact h wd hin sl hsl
      · subst heq
        rcases List.mem_append.mp hsl with hin2 | hin2
        · refine h (s.wsWindows.getD wi default) ?_ sl hin2
          rw [List.getD_eq_getElem _ default (by assumption)]
          exact List.getElem_mem (by assumption)
        · rw [List.mem_singleton] at hin2
          subst hin2
          constructor <;> dsimp only [WindowSlot.fresh] <;> split <;> omega
    · exact h

theorem updateTransformer_clamped (sl : WindowSlot) (tr : Transformer)
    (htr : sl.transformer = some tr) (hm : sl.view.mapped = true)
    (hw : 0 < sl.origGeo.width) (hh : 0 < sl.origGeo.height) :
    ∃ tr2, sl.updateTransformer.transformer = some tr2 ∧
      1 / 10 ≤ tr2.scaleX ∧ tr2.scaleX ≤ 10 ∧ 1 / 10 ≤ tr2.scaleY ∧ tr2.scaleY ≤ 10 := by
  unfold WindowSlot.updateTransformer
  rw [htr]
  dsimp only
  rw [if_neg (by
    push_neg
    refine ⟨by simp [hm], by omega, by omega⟩)]
  exact ⟨_, rfl, le_clampQ_of_le (by norm_num), clampQ_le_of_le (by norm_num),
    le_clampQ_of_le (by norm_num), clampQ_le_of_le (by norm_num)⟩

/-- C9: slots created at overview entry and on drag-drop arrival have
strictly positive original dimensions (non-positive source dimensions are
replaced by 100), and the scale factors computed by update_transformer
are clamped to [0.1, 10]. -/
theorem C9_theorem :
    (∀ (s : ActView) (now : ℚ) (gw gh : ℕ) (cur : WsPoint) (views : List ViewT),
      s.isActive = false → slotsPosL ((s.activate now gw gh cur views).wsWindows)) ∧
    (∀ (s : ActView) (v : ViewT) (wi : ℕ) (now : ℚ), slotsPosL s.wsWindows →
      slotsPosL ((s.addViewToWs v wi now).wsWindows)) ∧
    (∀ (sl : WindowSlot) (tr : Transformer), sl.transformer = some tr →
      sl.view.mapped = true → 0 < sl.origGeo.width → 0 < sl.origGeo.height →
      ∃ tr2, sl.updateTransformer.transformer = some tr2 ∧
        1 / 10 ≤ tr2.scaleX ∧ tr2.scaleX ≤ 10 ∧ 1 / 10 ≤ tr2.scaleY ∧ tr2.scaleY ≤ 10) :=
  ⟨activate_slotsPos, addViewToWs_slotsPos, updateTransformer_clamped⟩

/-- C9 witness: an entry with a degenerate 0-height window, a drag-drop
arrival of the same window, and a transformer update on a 50x40 slot. -/
theorem C9_witness :
    slotsPosL (((ActView.initial ⟨0, 0, 1920, 1080⟩).activate 0 1 1 ⟨0, 0⟩
      [⟨7, ⟨5, 5, -3, 0⟩, true, true, false, true⟩]).wsWindows) ∧
    slotsPosL (((ActView.initial ⟨0, 0, 1920, 1080⟩).addViewToWs
      ⟨7, ⟨5, 5, -3, 0⟩, true, true, false, true⟩ 0 0).wsWindows) ∧
    (∃ tr2, ({ WindowSlot.fresh ⟨7, ⟨0, 0, 50, 40⟩, true, true, false, true⟩ ⟨0, 0, 50, 40⟩ with
        transformer := some Transformer.initial } : WindowSlot).updateTransformer.transformer =
          some tr2 ∧
      1 / 10 ≤ tr2.scaleX ∧ tr2.scaleX ≤ 10 ∧ 1 / 10 ≤ tr2.scaleY ∧ tr2.scaleY ≤ 10) :=
  ⟨C9_theorem.1 _ 0 1 1 ⟨0, 0⟩ _ rfl,
   C9_theorem.2.1 _ _ 0 0 (by intro wd hwd; cases hwd),
   C9_theorem.2.2 _ Transformer.initial rfl rfl (by decide) (by decide)⟩

theorem layoutSlots_views (W H sp : ℤ) (a : ℚ) (slots : List WindowSlot) :
    (layoutSlots W H sp a slots).map (fun sl => sl.view) = slots.map (fun sl => sl.view) :=
  mapIdxFrom_map_eq _ _ 0 slots (fun _ _ => rfl)

theorem arrangeWsList_views (W H sp : ℤ) (a : ℚ) (ws : List WsWindowData) (wi i : ℕ) :
    slotViewsAt (arrangeWsList W H sp a ws wi) i = slotViewsAt ws i := by
  unfold arrangeWsList
  by_cases h1 : wi < ws.length
  · rw [if_pos h1]
    dsimp only
    split
    · rfl
    · unfold slotViewsAt
      by_cases h2 : i = wi
      · subst h2
        rw [getD_set_self _ _ _ _ h1]
        exact layoutSlots_views _ _ _ _ _
      · rw [getD_set_ne _ _ _ h2]
  · rw [if_neg h1]

theorem attachWsList_views (d now : ℚ) (ws : List WsWindowData) (wi i : ℕ) :
    slotViewsAt (attachWsList d now ws wi) i = slotViewsAt ws i := by
  unfold attachWsList
  by_cases h1 : wi < ws.length
  · rw [if_pos h1]
    dsimp only
    split
    · rfl
    · unfold slotViewsAt
      by_cases h2 : i = wi
      · subst h2
        rw [getD_set_self _ _ _ _ h1]
        dsimp only
        rw [List.map_map]
        refine List.map_congr_left ?_
        intro sl _
        simp only [Function.comp_apply]
        split
        · rw [startAnim_view]
        · rfl
      · rw [getD_set_ne _ _ _ h2]
  · rw [if_neg h1]

theorem arrangeWsWindows_views (s : ActView) (wi i : ℕ) :
    slotViewsAt (s.arrangeWsWindows wi).wsWindows i = slotViewsAt s.wsWindows i :=
  arrangeWsList_views _ _ _ _ _ wi i

theorem attachTransformersForWs_views (s : ActView) (wi : ℕ) (now : ℚ) (i : ℕ) :
    slotViewsAt (s.attachTransformersForWs wi now).wsWindows i = slotViewsAt s.wsWindows i :=
  attachWsList_views _ _ _ wi i

theorem foldl_arrange_views (l : List ℕ) (s : ActView) (i : ℕ) :
    slotViewsAt ((l.foldl (fun st wi => st.arrangeWsWindows wi) s).wsWindows) i =
      slotViewsAt s.wsWindows i := by
  induction l generalizing s with
  | nil => rfl
  | cons x xs ih => rw [List.foldl_cons, ih, arrangeWsWindows_views]

theorem foldl_attach_views (now : ℚ) (l : List ℕ) (s : ActView) (i : ℕ) :
    slotViewsAt ((l.foldl (fun st wi => st.attachTransformersForWs wi now) s).wsWindows) i =
      slotViewsAt s.wsWindows i := by
  induction l generalizing s with
  | nil => rfl
  | cons x xs ih => rw [List.foldl_cons, ih, attachTransformersForWs_views]

theorem arrange_views (s : ActView) (i : ℕ) :
    slotViewsAt s.arrange.wsWindows i = slotViewsAt s.wsWindows i := by
  unfold ActView.arrange
  exact foldl_arrange_views _ _ i

/-- What activate puts into workspace i's slot list: exactly the views
get_views_on_workspace selects for cell i, in order. -/
theorem activate_views (s : ActView) (now : ℚ) (gw gh : ℕ) (cur : WsPoint)
    (views : List ViewT) (h : s.isActive = false) (i : ℕ) :
    slotViewsAt ((s.activate now gw gh cur views).wsWindows) i =
      if i < gw * gh then getViewsOnWorkspace s.og cur views (wsIndexToPoint gw i) else [] := by
  rw [activate_eq s now gw gh cur views h]
  dsimp only
  rw [foldl_attach_views, arrange_views]
  unfold slotViewsAt
  dsimp only
  by_cases hlt : i < gw * gh
  · rw [if_pos hlt]
    have hlen : i < ((List.range (gw * gh)).map (fun i =>
        (⟨(getViewsOnWorkspace s.og cur views (wsIndexToPoint gw i)).map
            (fun tv => entrySlot s.og cur (wsIndexToPoint gw i) tv),
          false⟩ : WsWindowData))).length := by
      simpa using hlt
    rw [List.getD_eq_getElem _ default hlen, List.getElem_map]
    rw [List.getElem_range]
    dsimp only
    rw [List.map_map]
    rw [show ((fun sl => sl.view) ∘ fun tv => entrySlot s.og cur (wsIndexToPoint gw i) tv) = id
      from rfl, List.map_id]
  · rw [if_neg hlt]
    rw [List.getD_eq_default]
    · rfl
    · simpa using not_lt.mp hlt

theorem mem_getViews {og : Geo} {cur : WsPoint} {views : List ViewT} {ws : WsPoint}
    {v : ViewT} (h : v ∈ getViewsOnWorkspace og cur views ws) :
    v.isToplevel = true ∧ v.onOutput = true ∧ v.minimized = false ∧ v.mapped = true ∧
    viewCenterWsX og cur v = (ws.x : ℤ) ∧ viewCenterWsY og cur v = (ws.y : ℤ) := by
  unfold getViewsOnWorkspace at h
  obtain ⟨_, hc⟩ := List.mem_filter.mp h
  simp only [Bool.and_eq_true, beq_iff_eq, Bool.not_eq_true'] at hc
  tauto

theorem wsIndexToPoint_inj {gw gh i j : ℕ} (hi : i < gw * gh) (hj : j < gw * gh)
    (h : wsIndexToPoint gw i = wsIndexToPoint gw j) : i = j := by
  have hgw : 0 < gw := by
    rcases Nat.eq_zero_or_pos gw with h0 | h0
    · subst h0
      simp at hi
    · exact h0
  have hx : i % gw = j % gw := congrArg WsPoint.x h
  have hy : i / gw = j / gw := congrArg WsPoint.y h
  have h1 := Nat.div_add_mod i gw
  have h2 := Nat.div_add_mod j gw
  rw [hx, hy] at h1
  exact h1.symm.trans h2

/-- C10: activate creates slots only for mapped, non-minimized toplevel
views of this output, assigns each to the workspace containing the floor
of its center point, and no view record appears in two different
workspaces' slot collections. -/
theorem C10_theorem (s : ActView) (now : ℚ) (gw gh : ℕ) (cur : WsPoint)
    (views : List ViewT) (h : s.isActive = false) :
    (∀ i, ∀ v ∈ slotViewsAt ((s.activate now gw gh cur views).wsWindows) i,
      v.isToplevel = true ∧ v.onOutput = true ∧ v.minimized = false ∧ v.mapped = true ∧
      viewCenterWsX s.og cur v = ((wsIndexToPoint gw i).x : ℤ) ∧
      viewCenterWsY s.og cur v = ((wsIndexToPoint gw i).y : ℤ)) ∧
    (∀ i j, i ≠ j → ∀ v, v ∈ slotViewsAt ((s.activate now gw gh cur views).wsWindows) i →
      v ∉ slotViewsAt ((s.activate now gw gh cur views).wsWindows) j) := by
  constructor
  · intro i v hv
    rw [activate_views s now gw gh cur views h i] at hv
    by_cases hlt : i < gw * gh
    · rw [if_pos hlt] at hv
      exact mem_getViews hv
    · rw [if_neg hlt] at hv
      cases hv
  · intro i j hij v hvi hvj
    rw [activate_views s now gw gh cur views h i] at hvi
    rw [activate_views s now gw gh cur views h j] at hvj
    by_cases hi : i < gw * gh
    · by_cases hj : j < gw * gh
      · rw [if_pos hi] at hvi
        rw [if_pos hj] at hvj
        have h1 := mem_getViews hvi
        have h2 := mem_getViews hvj
        apply hij
        refine wsIndexToPoint_inj hi hj ?_
        have hxz : ((wsIndexToPoint gw i).x : ℤ) = ((wsIndexToPoint gw j).x : ℤ) := by
          rw [← h1.2.2.2.2.1, ← h2.2.2.2.2.1]
        have hyz : ((wsIndexToPoint gw i).y : ℤ) = ((wsIndexToPoint gw j).y : ℤ) := by
          rw [← h1.2.2.2.2.2, ← h2.2.2.2.2.2]
        have hx : (wsIndexToPoint gw i).x = (wsIndexToPoint gw j).x := by exact_mod_cast hxz
        have hy : (wsIndexToPoint gw i).y = (wsIndexToPoint gw j).y := by exact_mod_cast hyz
        cases hp : wsIndexToPoint gw i
        cases hq : wsIndexToPoint gw j
        rw [hp, hq] at hx hy
        simp only at hx hy
        rw [hx, hy]
      · rw [if_neg hj] at hvj
        cases hvj
    · rw [if_neg hi] at hvi
      cases hvi

/-- C10 witness: one mapped toplevel view on a 2x1 grid. -/
theorem C10_witness :
    (∀ i, ∀ v ∈ slotViewsAt (((ActView.initial ⟨0, 0, 1000, 800⟩).activate 0 2 1 ⟨0, 0⟩
        [⟨3, ⟨100, 100, 400, 300⟩, true, true, false, true⟩]).wsWindows) i,
      v.isToplevel = true ∧ v.onOutput = true ∧ v.minimized = false ∧ v.mapped = true ∧
      viewCenterWsX (ActView.initial ⟨0, 0, 1000, 800⟩).og ⟨0, 0⟩ v =
        ((wsIndexToPoint 2 i).x : ℤ) ∧
      viewCenterWsY (ActView.initial ⟨0, 0, 1000, 800⟩).og ⟨0, 0⟩ v =
        ((wsIndexToPoint 2 i).y : ℤ)) ∧
    (∀ i j, i ≠ j → ∀ v,
      v ∈ slotViewsAt (((ActView.initial ⟨0, 0, 1000, 800⟩).activate 0 2 1 ⟨0, 0⟩
        [⟨3, ⟨100, 100, 400, 300⟩, true, true, false, true⟩]).wsWindows) i →
      v ∉ slotViewsAt (((ActView.initial ⟨0, 0, 1000, 800⟩).activate 0 2 1 ⟨0, 0⟩
        [⟨3, ⟨100, 100, 400, 300⟩, true, true, false, true⟩]).wsWindows) j) :=
  C10_theorem (ActView.initial ⟨0, 0, 1000, 800⟩) 0 2 1 ⟨0, 0⟩
    [⟨3, ⟨100, 100, 400, 300⟩, true, true, false, true⟩] rfl

-- ===========================================================================
-- Claim C7
-- ===========================================================================

theorem lastHit_aux (wp : Ptf) (slots : List WindowSlot) (o : Option ℕ) (k : ℕ) :
    (slots.foldl
      (fun (acc : Option ℕ × ℕ) sl =>
        (if ptInGeoF wp sl.anim.current then some acc.2 else acc.1, acc.2 + 1)) (o, k)).2 =
      k + slots.length ∧
    ∀ i, (slots.foldl
      (fun (acc : Option ℕ × ℕ) sl =>
        (if ptInGeoF wp sl.anim.current then some acc.2 else acc.1, acc.2 + 1)) (o, k)).1 =
        some i → o = some i ∨ (k ≤ i ∧ i < k + slots.length) := by
  induction slots generalizing o k with
  | nil => exact ⟨rfl, fun i h => Or.inl h⟩
  | cons sl rest ih =>
    rw [List.foldl_cons]
    obtain ⟨ih1, ih2⟩ := ih (if ptInGeoF wp sl.anim.current then some k else o) (k + 1)
    constructor
    · rw [ih1, List.length_cons]
      omega
    · intro i hi
      rcases ih2 i hi with h | h
      · by_cases hp : ptInGeoF wp sl.anim.current
        · rw [if_pos hp] at h
          have hik : k = i := Option.some.inj h
          right
          rw [List.length_cons]
          omega
        · rw [if_neg hp] at h
          exact Or.inl h
      · right
        rw [List.length_cons]
        omega

theorem lastHitIdx_lt (wp : Ptf) (slots : List WindowSlot) (i : ℕ)
    (h : lastHitIdx wp slots = some i) : i < slots.length := by
  unfold lastHitIdx at h
  rcases (lastHit_aux wp slots none 0).2 i h with h2 | h2
  · cases h2
  · omega

theorem findSlotAt_some {s : ActView} {sl : Ptf} {idx : ℕ}
    (h : s.findSlotAt sl = some idx) :
    s.focusedWs < s.wsWindows.length ∧
    idx < (s.wsWindows.getD s.focusedWs default).slots.length := by
  unfold ActView.findSlotAt at h
  by_cases h1 : s.focusedWs < s.wsWindows.length
  · rw [if_pos h1] at h
    by_cases h2 : s.findLargeWsAt sl = some s.focusedWs
    · rw [if_pos h2] at h
      exact ⟨h1, lastHitIdx_lt _ _ _ h⟩
    · rw [if_neg h2] at h
      cases h
  · rw [if_neg h1] at h
    cases h

theorem startDrag_found (s : ActView) (sl : Ptf) (idx : ℕ)
    (hA : s.drag.active = false) (hf : s.findSlotAt sl = some idx) :
    (s.startDrag sl).wsWindows = s.wsWindows ∧ (s.startDrag sl).focusedWs = s.focusedWs ∧
    (s.startDrag sl).animDuration = s.animDuration ∧
    (s.startDrag sl).drag.active = true ∧ (s.startDrag sl).drag.slotIndex = some idx := by
  unfold ActView.startDrag
  rw [if_neg (by simp [hA]), hf]
  exact ⟨rfl, rfl, rfl, rfl, rfl⟩

/-- C7: start_drag at a point hitting a slot, immediately followed by
cancel_drag, leaves that slot animating toward the exact target geometry
it had before the drag (the target is not recomputed), and clears the
whole drag session. -/
theorem C7_theorem (s : ActView) (sl : Ptf) (now : ℚ) (idx : ℕ)
    (hA : s.drag.active = false) (hf : s.findSlotAt sl = some idx) :
    ((((s.startDrag sl).cancelDrag now).wsWindows.getD s.focusedWs default).slots.getD idx
        default).targetGeo =
      ((s.wsWindows.getD s.focusedWs default).slots.getD idx default).targetGeo ∧
    ((((s.startDrag sl).cancelDrag now).wsWindows.getD s.focusedWs default).slots.getD idx
        default).anim.x.goal =
      (((s.wsWindows.getD s.focusedWs default).slots.getD idx default).targetGeo.x : ℚ) ∧
    ((((s.startDrag sl).cancelDrag now).wsWindows.getD s.focusedWs default).slots.getD idx
        default).anim.y.goal =
      (((s.wsWindows.getD s.focusedWs default).slots.getD idx default).targetGeo.y : ℚ) ∧
    ((((s.startDrag sl).cancelDrag now).wsWindows.getD s.focusedWs default).slots.getD idx
        default).anim.w.goal =
      (((s.wsWindows.getD s.focusedWs default).slots.getD idx default).targetGeo.width : ℚ) ∧
    ((((s.startDrag sl).cancelDrag now).wsWindows.getD s.focusedWs default).slots.getD idx
        default).anim.h.goal =
      (((s.wsWindows.getD s.focusedWs default).slots.getD idx default).targetGeo.height : ℚ) ∧
    ((((s.startDrag sl).cancelDrag now).wsWindows.getD s.focusedWs default).slots.getD idx
        default).anim.isAnimating = true ∧
    ((s.startDrag sl).cancelDrag now).drag.active = false ∧
    ((s.startDrag sl).cancelDrag now).drag.view = none ∧
    ((s.startDrag sl).cancelDrag now).drag.slotIndex = none ∧
    ((s.startDrag sl).cancelDrag now).drag.hoverWs = none ∧
    ((s.startDrag sl).cancelDrag now).drag.hoverLargeWs = none ∧
    ((s.startDrag sl).cancelDrag now).drag.needsCapture = false := by
  obtain ⟨hfoc, hidx⟩ := findSlotAt_some hf
  obtain ⟨hW, hF, hD, hAct, hSi⟩ := startDrag_found s sl idx hA hf
  unfold ActView.cancelDrag
  rw [if_neg (by simp [hAct])]
  unfold ActView.snapBackDraggedSlot
  rw [hSi]
  dsimp only
  rw [if_pos (by rw [hW, hF]; exact ⟨hfoc, hidx⟩)]
  dsimp only
  rw [hW, hF]
  rw [getD_set_self _ _ _ _ hfoc]
  dsimp only
  rw [getD_set_self _ _ _ _ hidx]
  refine ⟨rfl, rfl, rfl, rfl, rfl, rfl, rfl, rfl, rfl, rfl, rfl, rfl⟩

-- ===========================================================================
-- Claim C5
-- ===========================================================================

theorem Anim.retarget_tick_done (a : Anim) (d n1 n2 g : ℚ)
    (hd : a.durationMs = d) (hdpos : 0 < d) (ht : n1 + d ≤ n2) :
    ((a.animateTo n1 g).tick n2).animating = false ∧ ((a.animateTo n1 g).tick n2).val = g := by
  have hd2 : (a.animateTo n1 g).durationMs = d := hd
  have h := Anim.tick_done (a.animateTo n1 g) n2 (by rw [hd2]; exact hdpos)
    (by rw [show (a.animateTo n1 g).startTime = n1 from rfl, hd2]; exact ht)
  exact ⟨h.1, h.2 rfl⟩

theorem desk_deact_tick (ag : AnimGeo) (d n1 n2 : ℚ) (g : Geo)
    (hdx : ag.x.durationMs = d) (hdy : ag.y.durationMs = d)
    (hdw : ag.w.durationMs = d) (hdh : ag.h.durationMs = d)
    (hdpos : 0 < d) (ht : n1 + d ≤ n2) :
    ((ag.animateTo n1 g).tick n2).isAnimating = false ∧
    ((ag.animateTo n1 g).tick n2).current = g := by
  have hx := Anim.retarget_tick_done ag.x d n1 n2 (g.x : ℚ) hdx hdpos ht
  have hy := Anim.retarget_tick_done ag.y d n1 n2 (g.y : ℚ) hdy hdpos ht
  have hw2 := Anim.retarget_tick_done ag.w d n1 n2 (g.width : ℚ) hdw hdpos ht
  have hh2 := Anim.retarget_tick_done ag.h d n1 n2 (g.height : ℚ) hdh hdpos ht
  constructor
  · simp only [AnimGeo.animateTo, AnimGeo.tick, AnimGeo.isAnimating]
    rw [hx.1, hy.1, hw2.1, hh2.1]
    rfl
  · simp only [AnimGeo.animateTo, AnimGeo.tick, AnimGeo.current]
    rw [hx.2, hy.2, hw2.2, hh2.2, ratTrunc_intCast, ratTrunc_intCast, ratTrunc_intCast,
      ratTrunc_intCast]

theorem slot_deact_tick_quiet (sl : WindowSlot) (dur n1 n2 : ℚ)
    (hdpos : 0 < dur) (ht : n1 + dur ≤ n2) :
    ((sl.startAnim false dur n1).anim.tick n2).isAnimating = false := by
  have hx := (Anim.retarget_tick_done (sl.anim.x.setDuration dur) dur n1 n2
    (sl.origGeo.x : ℚ) rfl hdpos ht).1
  have hy := (Anim.retarget_tick_done (sl.anim.y.setDuration dur) dur n1 n2
    (sl.origGeo.y : ℚ) rfl hdpos ht).1
  have hw2 := (Anim.retarget_tick_done (sl.anim.w.setDuration dur) dur n1 n2
    (sl.origGeo.width : ℚ) rfl hdpos ht).1
  have hh2 := (Anim.retarget_tick_done (sl.anim.h.setDuration dur) dur n1 n2
    (sl.origGeo.height : ℚ) rfl hdpos ht).1
  show ((((sl.anim.setDuration dur).animateTo n1 sl.origGeo)).tick n2).isAnimating = false
  simp only [AnimGeo.setDuration, AnimGeo.animateTo, AnimGeo.tick, AnimGeo.isAnimating]
  rw [hx, hy, hw2, hh2]
  rfl

/-- deactivate with no workspace change pending: the whole effect is the
slot exit animations plus the preview rect animating back to fullscreen. -/
theorem deactivate_noswitch_eq (s : ActView) (now1 : ℚ) (hA : s.isActive = true)
    (heq : s.focusedWs = wsPointToIndex s.wsCols s.origWs) :
    s.deactivate now1 = { s with
      drag := s.drag.reset, isAnimating := true,
      wsWindows := s.wsWindows.map (fun wd =>
        { wd with slots := wd.slots.map (fun sl => sl.startAnim false s.animDuration now1) }),
      desktopAnim := s.desktopAnim.animateTo now1 ⟨0, 0, s.og.width, s.og.height⟩ } := by
  unfold ActView.deactivate
  rw [if_neg (by simp [hA])]
  dsimp only
  rw [if_neg (not_ne_iff.mpr heq)]

/-- Once the ticked state has nothing animating and the preview rect is
back to (nearly) full width, a non-switching session closes: inactive, no
set_workspace call. -/
theorem tick_finishes (s : ActView) (now2 : ℚ)
    (hIs : s.isAnimating = true)
    (hsw : s.switchingWs = false)
    (hany : (s.tickAnims now2).anyAnimating = false)
    (hwid : s.og.width - 10 ≤ (s.desktopAnim.tick now2).current.width) :
    (s.tick now2).isActive = false ∧ (s.tick now2).wsLog = s.wsLog ∧
    (s.tick now2).switchingWs = false := by
  have hIs2 : (s.tickAnims now2).isAnimating = true := hIs
  have hsw2 : (s.tickAnims now2).switchingWs = false := hsw
  have hwid2 : (s.tickAnims now2).og.width - 10 ≤
      (s.tickAnims now2).desktopAnim.current.width := hwid
  unfold ActView.tick ActView.checkDone
  rw [if_neg (by simp [hIs2]), if_neg (by simp [hany])]
  dsimp only
  rw [if_pos hwid2, if_neg (by simp [hsw2]), cleanupAll_shape]
  exact ⟨rfl, rfl, hsw⟩

/-- deactivate-then-quiescent-tick from any active, non-switching state
whose focused workspace equals the entry workspace: the session ends
inactive with no ghost set_workspace call appended. -/
theorem deact_tick_core (s : ActView) (now1 now2 : ℚ)
    (hA : s.isActive = true) (hsw : s.switchingWs = false)
    (heq : s.focusedWs = wsPointToIndex s.wsCols s.origWs)
    (hcar : s.carouselScroll.animating = false)
    (hdur : 0 < s.animDuration)
    (hdx : s.desktopAnim.x.durationMs = s.animDuration)
    (hdy : s.desktopAnim.y.durationMs = s.animDuration)
    (hdw : s.desktopAnim.w.durationMs = s.animDuration)
    (hdh : s.desktopAnim.h.durationMs = s.animDuration)
    (ht : now1 + s.animDuration ≤ now2) :
    ((s.deactivate now1).tick now2).isActive = false ∧
    ((s.deactivate now1).tick now2).wsLog = s.wsLog ∧
    ((s.deactivate now1).tick now2).switchingWs = false := by
  rw [deactivate_noswitch_eq s now1 hA heq]
  refine tick_finishes _ now2 rfl hsw ?_ ?_
  · unfold ActView.tickAnims ActView.anyAnimating
    dsimp only
    simp only [Bool.or_eq_false_iff]
    refine ⟨⟨?_, ?_⟩, ?_⟩
    · exact (desk_deact_tick s.desktopAnim s.animDuration now1 now2
        ⟨0, 0, s.og.width, s.og.height⟩ hdx hdy hdw hdh hdur ht).1
    · rw [Anim.tick_of_not_animating hcar]
      exact hcar
    · simp only [List.map_map, List.any_map, List.any_eq_false, Function.comp]
      intro wd hwd
      simp only [Bool.not_eq_true, List.map_map, List.any_map, List.any_eq_false,
        Function.comp]
      intro sl hsl
      simp only [Bool.not_eq_true, updateTransformer_anim]
      exact slot_deact_tick_quiet sl s.animDuration now1 now2 hdur ht
  · show s.og.width - 10 ≤
      (((s.desktopAnim.animateTo now1 ⟨0, 0, s.og.width, s.og.height⟩)).tick now2).current.width
    rw [(desk_deact_tick s.desktopAnim s.animDuration now1 now2
      ⟨0, 0, s.og.width, s.og.height⟩ hdx hdy hdw hdh hdur ht).2]
    show s.og.width - 10 ≤ s.og.width
    omega

/-- The tail of activate (arrange, transformer attachment, carousel warp,
preview rect animation) as a single record update. -/
theorem activate_tail (s1 : ActView) (now : ℚ) (total : ℕ) (g : Geo) :
    ∃ G P C WS tgt,
      (let s3 := (List.range total).foldl (fun st i => st.attachTransformersForWs i now)
        s1.arrange
       let s4 := { s3 with carouselScroll :=
         (s3.carouselScroll.setDuration s3.animDuration).warp (s3.scrollTargetFor s3.focusedWs) }
       { s4 with desktopAnim := (s4.desktopAnim.warp g).animateTo now s4.previewGeo }) =
      { s1 with
        wsGeos := G, previewGeo := P, carouselGap := C, wsWindows := WS,
        carouselScroll := (s1.carouselScroll.setDuration s1.animDuration).warp tgt,
        desktopAnim := (s1.desktopAnim.warp g).animateTo now P } := by
  obtain ⟨G, P, C, X2, h2⟩ := arrange_shape s1
  obtain ⟨X3, h3⟩ := foldl_wsWindows_shape (fun st i => st.attachTransformersForWs i now)
    (fun st i => attachTransformersForWs_shape st i now) (List.range total) s1.arrange
  refine ⟨G, P, C, X3,
    ((s1.focusedWs : ℚ) * ((P.width : ℚ) + (C : ℚ)) + (P.width : ℚ) / 2) -
      (s1.og.width : ℚ) / 2, ?_⟩
  dsimp only
  rw [h3, h2]
  rfl

/-- activate from an inactive state, as one record update: the fields it
never touches (wsLog, switchingWs, pendingWs, animDuration, og, the
desktop animator durations) are visibly preserved. -/
theorem activate_shape (s : ActView) (now : ℚ) (gw gh : ℕ) (cur : WsPoint)
    (views : List ViewT) (h : s.isActive = false) :
    ∃ G P C WS tgt,
      s.activate now gw gh cur views = { s with
        isActive := true, isAnimating := true, drag := s.drag.reset,
        wsCols := gw, wsRows := gh, totalWs := gw * gh,
        curWs := cur, origWs := cur, focusedWs := wsPointToIndex gw cur,
        wsGeos := G, previewGeo := P, carouselGap := C, wsWindows := WS,
        carouselScroll := (s.carouselScroll.setDuration s.animDuration).warp tgt,
        desktopAnim := (s.desktopAnim.warp ⟨0, 0, s.og.width, s.og.height⟩).animateTo now P } := by
  obtain ⟨G, P, C, WS, tgt, ht2⟩ := activate_tail ({ s with
    isActive := true, isAnimating := true, drag := s.drag.reset,
    wsCols := gw, wsRows := gh, totalWs := gw * gh,
    curWs := cur, origWs := cur, focusedWs := wsPointToIndex gw cur,
    wsWindows := (List.range (gw * gh)).map (fun i =>
      (⟨(getViewsOnWorkspace s.og cur views (wsIndexToPoint gw i)).map
          (fun tv => entrySlot s.og cur (wsIndexToPoint gw i) tv),
        false⟩ : WsWindowData)) } : ActView) now (gw * gh) ⟨0, 0, s.og.width, s.og.height⟩
  refine ⟨G, P, C, WS, tgt, ?_⟩
  rw [activate_eq s now gw gh cur views h]
  exact ht2

theorem deact_pending_mark (s : ActView) (now : ℚ) (hA : s.isActive = true) :
    (s.focusedWs ≠ wsPointToIndex s.wsCols s.origWs →
      (s.deactivate now).switchingWs = true ∧
      (s.deactivate now).pendingWs = some s.focusedWs) ∧
    (s.focusedWs = wsPointToIndex s.wsCols s.origWs →
      (s.deactivate now).switchingWs = s.switchingWs ∧
      (s.deactivate now).pendingWs = s.pendingWs) := by
  constructor
  · intro hne
    unfold ActView.deactivate
    rw [if_neg (by simp [hA])]
    dsimp only
    rw [if_pos hne]
    exact ⟨rfl, rfl⟩
  · intro heq
    unfold ActView.deactivate
    rw [if_neg (by simp [hA])]
    dsimp only
    rw [if_neg (not_ne_iff.mpr heq)]
    exact ⟨rfl, rfl⟩

theorem commit_requires_quiet (s : ActView) (now : ℚ)
    (hne : (s.tick now).wsLog ≠ s.wsLog) :
    (s.tickAnims now).anyAnimating = false ∧ (s.tick now).isActive = false := by
  by_cases h1 : (s.tickAnims now).isAnimating = false
  · exfalso
    apply hne
    unfold ActView.tick ActView.checkDone
    rw [if_pos h1]
    rfl
  · by_cases h2 : (s.tickAnims now).anyAnimating = true
    · exfalso
      apply hne
      unfold ActView.tick ActView.checkDone
      rw [if_neg h1, if_pos h2]
      rfl
    · have h2f : (s.tickAnims now).anyAnimating = false := by
        cases hb : (s.tickAnims now).anyAnimating
        · rfl
        · exact absurd hb h2
      refine ⟨h2f, ?_⟩
      unfold ActView.tick ActView.checkDone
      rw [if_neg h1, if_neg (by simp [h2f])]
      dsimp only
      by_cases h3 : (s.tickAnims now).og.width - 10 ≤
          (s.tickAnims now).desktopAnim.current.width
      · rw [if_pos h3]
      · exfalso
        apply hne
        unfold ActView.tick ActView.checkDone
        rw [if_neg h1, if_neg (by simp [h2f])]
        dsimp only
        rw [if_neg h3]
        rfl

theorem scenarioD (s0 : ActView) (now0 now1 now2 : ℚ) (gw gh : ℕ) (cur : WsPoint)
    (views : List ViewT)
    (h0 : s0.isActive = false) (hsw : s0.switchingWs = false)
    (hdur : 0 < s0.animDuration)
    (hdx : s0.desktopAnim.x.durationMs = s0.animDuration)
    (hdy : s0.desktopAnim.y.durationMs = s0.animDuration)
    (hdw : s0.desktopAnim.w.durationMs = s0.animDuration)
    (hdh : s0.desktopAnim.h.durationMs = s0.animDuration)
    (ht : now1 + s0.animDuration ≤ now2) :
    (((s0.activate now0 gw gh cur views).deactivate now1).tick now2).isActive = false ∧
    (((s0.activate now0 gw gh cur views).deactivate now1).tick now2).wsLog = s0.wsLog ∧
    (((s0.activate now0 gw gh cur views).deactivate now1).tick now2).switchingWs = false := by
  obtain ⟨G, P, C, WS, tgt, hact⟩ := activate_shape s0 now0 gw gh cur views h0
  set sA := s0.activate now0 gw gh cur views with hsA
  have hA : sA.isActive = true := by rw [hact]
  have hsw2 : sA.switchingWs = false := by rw [hact]; exact hsw
  have heq : sA.focusedWs = wsPointToIndex sA.wsCols sA.origWs := by rw [hact]
  have hcar : sA.carouselScroll.animating = false := by rw [hact]; rfl
  have hdur2 : 0 < sA.animDuration := by rw [hact]; exact hdur
  have hdx2 : sA.desktopAnim.x.durationMs = sA.animDuration := by rw [hact]; exact hdx
  have hdy2 : sA.desktopAnim.y.durationMs = sA.animDuration := by rw [hact]; exact hdy
  have hdw2 : sA.desktopAnim.w.durationMs = sA.animDuration := by rw [hact]; exact hdw
  have hdh2 : sA.desktopAnim.h.durationMs = sA.animDuration := by rw [hact]; exact hdh
  have ht2 : now1 + sA.animDuration ≤ now2 := by rw [hact]; exact ht
  have h := deact_tick_core sA now1 now2 hA hsw2 heq hcar hdur2 hdx2 hdy2 hdw2 hdh2 ht2
  refine ⟨h.1, ?_, h.2.2⟩
  rw [h.2.1, hact]

/-- C5: deactivate marks a pending workspace switch (switching_ws with
pending_ws = the focused workspace) exactly when the focused workspace
differs from the one recorded at entry; the switch is committed (a
set_workspace call logged) only by the completion check when no animation
is still in flight, and then the view goes inactive; and
deactivate-after-activate with an unchanged focused workspace eventually
reaches the inactive state with no workspace switch at all once every
in-flight animation has had time to finish. -/
theorem C5_theorem :
    (∀ (s : ActView) (now : ℚ), s.isActive = true →
      (s.focusedWs ≠ wsPointToIndex s.wsCols s.origWs →
        (s.deactivate now).switchingWs = true ∧
        (s.deactivate now).pendingWs = some s.focusedWs) ∧
      (s.focusedWs = wsPointToIndex s.wsCols s.origWs →
        (s.deactivate now).switchingWs = s.switchingWs ∧
        (s.deactivate now).pendingWs = s.pendingWs)) ∧
    (∀ (s : ActView) (now : ℚ), (s.tick now).wsLog ≠ s.wsLog →
      (s.tickAnims now).anyAnimating = false ∧ (s.tick now).isActive = false) ∧
    (∀ (s0 : ActView) (now0 now1 now2 : ℚ) (gw gh : ℕ) (cur : WsPoint) (views : List ViewT),
      s0.isActive = false → s0.switchingWs = false → 0 < s0.animDuration →
      s0.desktopAnim.x.durationMs = s0.animDuration →
      s0.desktopAnim.y.durationMs = s0.animDuration →
      s0.desktopAnim.w.durationMs = s0.animDuration →
      s0.desktopAnim.h.durationMs = s0.animDuration →
      now1 + s0.animDuration ≤ now2 →
      (((s0.activate now0 gw gh cur views).deactivate now1).tick now2).isActive = false ∧
      (((s0.activate now0 gw gh cur views).deactivate now1).tick now2).wsLog = s0.wsLog ∧
      (((s0.activate now0 gw gh cur views).deactivate now1).tick now2).switchingWs = false) :=
  ⟨fun s now hA => deact_pending_mark s now hA,
   fun s now hne => commit_requires_quiet s now hne,
   fun s0 now0 now1 now2 gw gh cur views h0 hsw hdur hdx hdy hdw hdh ht =>
     scenarioD s0 now0 now1 now2 gw gh cur views h0 hsw hdur hdx hdy hdw hdh ht⟩

theorem C5_witness :
    ((((ActView.initial ⟨0, 0, 1000, 1000⟩).activate 0 2 1 ⟨0, 0⟩ []).deactivate
        10).tick 400).isActive = false ∧
    ((((ActView.initial ⟨0, 0, 1000, 1000⟩).activate 0 2 1 ⟨0, 0⟩ []).deactivate
        10).tick 400).wsLog = (ActView.initial ⟨0, 0, 1000, 1000⟩).wsLog ∧
    ((((ActView.initial ⟨0, 0, 1000, 1000⟩).activate 0 2 1 ⟨0, 0⟩ []).deactivate
        10).tick 400).switchingWs = false := by
  have h := C5_theorem.2.2 (ActView.initial ⟨0, 0, 1000, 1000⟩) 0 10 400 2 1 ⟨0, 0⟩ []
    rfl rfl (by norm_num [ActView.initial]) rfl rfl rfl rfl
    (by norm_num [ActView.initial])
  exact ⟨h.1, h.2.1, h.2.2⟩

theorem C7_witness :
    ((((c7State.startDrag ⟨500, 500⟩).cancelDrag 0).wsWindows.getD c7State.focusedWs
        default).slots.getD 0 default).targetGeo =
      ((c7State.wsWindows.getD c7State.focusedWs default).slots.getD 0 default).targetGeo ∧
    ((((c7State.startDrag ⟨500, 500⟩).cancelDrag 0).wsWindows.getD c7State.focusedWs
        default).slots.getD 0 default).anim.isAnimating = true ∧
    ((c7State.startDrag ⟨500, 500⟩).cancelDrag 0).drag.active = false := by
  have h := C7_theorem c7State ⟨500, 500⟩ 0 0 (by rfl)
    (by norm_num [ActView.findSlotAt, ActView.findLargeWsAt, ActView.getLargeWsRenderGeo,
      ActView.screenToWsLocal, lastHitIdx, ptInGeoF, ratTrunc, c7State, c7Slot, c7View,
      ActView.initial, Anim.init, AnimGeo.init, AnimGeo.warp, Anim.warp, AnimGeo.current,
      WindowSlot.fresh, List.range_succ, List.find?, List.getD])
  exact ⟨h.1, h.2.2.2.2.2.1, h.2.2.2.2.2.2.1⟩

end Overview

